import Mathlib

/-!
Shallow embedding of `src/tag/media_segment.rs` of the `hls_m3u8` repository:
the per-segment HLS tags (EXTINF, EXT-X-BYTERANGE, EXT-X-DISCONTINUITY,
EXT-X-KEY, EXT-X-MAP, EXT-X-PROGRAM-DATE-TIME, EXT-X-DATERANGE), their
parse (`FromStr`), render (`Display`) and `requires_version` functions.

Rust strings are modelled as `List Char`.  The helper modules of the
repository (`attribute.rs`, `types.rs`) are not part of the provided source;
the scalar codecs and the attribute-list parser they contain are modelled
from the specification and marked as such in their doc comments.
-/

namespace M3u8

/-- Character-list model of a Rust `&str`. -/
abbrev Str := List Char

/-- Convert a Lean string literal into the character-list model. -/
def toL (s : String) : Str := s.toList

/-- Modelled from the spec: the single error kind `InvalidInput` that every
parse failure surfaces (`ErrorKind` lives outside the provided source). -/
inductive ErrK where
  | invalidInput
deriving DecidableEq

deriving instance DecidableEq for Except

/-- Result type of every fallible operation of the codec. -/
abbrev Res (α : Type) := Except ErrK α

/-- Shorthand for the `InvalidInput` failure value. -/
def errI {α : Type} : Res α := Except.error ErrK.invalidInput

/-- Protocol compatibility versions V1..V7 of RFC 8216. -/
inductive ProtocolVersion where
  | v1 | v2 | v3 | v4 | v5 | v6 | v7
deriving DecidableEq

/-- Boolean test that `p` is a leading segment of `s` (Rust `str::starts_with`). -/
def startsWithL : Str → Str → Bool
  | [], _ => true
  | _ :: _, [] => false
  | p :: ps, c :: cs => p = c && startsWithL ps cs

/-- Split a string at the first occurrence of `c` (Rust `splitn(2, c)`);
the second component is `none` when `c` does not occur. -/
def splitFirst (c : Char) : Str → Str × Option Str
  | [] => ([], none)
  | x :: xs =>
    if x = c then ([], some xs)
    else
      let r := splitFirst c xs
      (x :: r.1, r.2)

/-- Numeric value of a run of ASCII digits. -/
def digitsVal (l : Str) : Nat := l.foldl (fun a c => a * 10 + (c.toNat - 48)) 0

/-- Modelled from the spec: the unsigned decimal-integer codec used by the
byte-range scalar (implementation outside the provided source). -/
def parseNat (s : Str) : Res Nat :=
  if s ≠ [] ∧ s.all Char.isDigit then Except.ok (digitsVal s) else errI

/-- Modelled from the spec: `DecimalFloatingPoint` parsing — an ASCII decimal
number without exponent, read with nanosecond precision; the result is the
total number of nanoseconds (implementation outside the provided source). -/
def parseDecimal (s : Str) : Res Nat :=
  match splitFirst '.' s with
  | (ip, none) =>
    if ip ≠ [] ∧ ip.all Char.isDigit then Except.ok (digitsVal ip * 1000000000)
    else errI
  | (ip, some fp) =>
    if ip ≠ [] ∧ ip.all Char.isDigit ∧ fp ≠ [] ∧ fp.all Char.isDigit then
      Except.ok (digitsVal ip * 1000000000 + digitsVal (fp.take 9) * 10 ^ (9 - min 9 fp.length))
    else errI

/-- Rust `std::time::Duration`: whole seconds plus sub-second nanoseconds. -/
structure Duration where
  secs : Nat
  nanos : Nat
deriving DecidableEq

/-- Modelled from the spec: `DecimalFloatingPoint::to_duration`, converting a
nanosecond total into whole-plus-fractional seconds. -/
def toDuration (n : Nat) : Duration := ⟨n / 1000000000, n % 1000000000⟩

/-- ASCII control character test. -/
def isCtrl (c : Char) : Bool := c.toNat < 32 || c.toNat == 127

/-- Modelled from the spec: `M3u8String::new` — free text that may contain no
control characters (implementation outside the provided source). -/
def m3u8New (s : Str) : Res Str :=
  if s.all fun c => !isCtrl c then Except.ok s else errI

/-- Modelled from the spec: the quoted-string codec — text delimited by a pair
of double quotes, with no raw quote inside; fails with `InvalidInput`
otherwise (implementation outside the provided source). -/
def parseQuoted (v : Str) : Res Str :=
  match v with
  | '"' :: rest =>
    if rest ≠ [] ∧ rest.getLast? = some '"' ∧ rest.dropLast.all (· ≠ '"') then
      Except.ok rest.dropLast
    else errI
  | _ => errI

/-- Modelled from the spec: quoted-string rendering re-wraps the content in
quotes verbatim (the format forbids quotes inside). -/
def renderQuoted (s : Str) : Str := '"' :: s ++ ['"']

/-- Byte-range value: a length and an optional start offset. -/
structure ByteRange where
  length : Nat
  start : Option Nat
deriving DecidableEq

/-- Modelled from the spec: the byte-range codec parsing `LENGTH` or
`LENGTH@START` (implementation outside the provided source). -/
def parseByteRange (s : Str) : Res ByteRange :=
  match splitFirst '@' s with
  | (l, none) => Except.map (fun n => ⟨n, none⟩) (parseNat l)
  | (l, some st) =>
    match parseNat l, parseNat st with
    | Except.ok a, Except.ok b => Except.ok ⟨a, some b⟩
    | _, _ => errI

/-- Decimal digits of a natural number. -/
def natToStr (n : Nat) : Str := Nat.toDigits 10 n

/-- Modelled from the spec: byte-range rendering, omitting `@START` when the
start offset is absent. -/
def renderByteRange (r : ByteRange) : Str :=
  natToStr r.length ++ (match r.start with
    | some st => '@' :: natToStr st
    | none => [])

/-- Hexadecimal digit test. -/
def isHexDigitC (c : Char) : Bool :=
  c.isDigit || ('a' ≤ c && c ≤ 'f') || ('A' ≤ c && c ≤ 'F')

/-- Modelled from the spec: the hexadecimal-sequence codec — a `0x`/`0X`
token followed by hex digits, stored lower-cased so that rendering as
`0x` plus lowercase hex round-trips (implementation outside the provided
source). -/
def parseHexSeq (v : Str) : Res Str :=
  match v with
  | '0' :: x :: rest =>
    if (x = 'x' ∨ x = 'X') ∧ rest ≠ [] ∧ rest.all isHexDigitC then
      Except.ok (rest.map Char.toLower)
    else errI
  | _ => errI

/-- Modelled from the spec: hexadecimal-sequence rendering. -/
def renderHexSeq (h : Str) : Str := '0' :: 'x' :: h

/-- Modelled from the spec: the `Yes` marker type of `types.rs`. -/
inductive Yes where
  | yes
deriving DecidableEq

/-- Modelled from the spec: parsing of the `Yes` marker from the literal
`YES` (implementation outside the provided source). -/
def parseYes (v : Str) : Res Yes :=
  if v = toL "YES" then Except.ok Yes.yes else errI

/-- Modelled from the spec: raw splitting of an attribute list on top-level
commas — a comma inside a quoted-string value does not terminate a pair
(`AttributePairs` lives outside the provided source). -/
def splitAttrsAux : Str → Bool → Str → List Str
  | [], _, cur => [cur.reverse]
  | c :: rest, q, cur =>
    if c = ',' ∧ q = false then cur.reverse :: splitAttrsAux rest false []
    else splitAttrsAux rest (if c = '"' then !q else q) (c :: cur)

/-- Modelled from the spec: decoding of one raw `KEY=VALUE` entry into a
`(key, raw-value)` pair; malformed entries fail with `InvalidInput`. -/
def parsePair (e : Str) : Res (Str × Str) :=
  match splitFirst '=' e with
  | (k, some v) => if k ≠ [] then Except.ok (k, v) else errI
  | (_, none) => errI

/-- Modelled from the spec: `AttributePairs::parse` — the sequence of
`(key, raw-value)` pair results of an attribute list. -/
def attrPairs (s : Str) : List (Res (Str × Str)) :=
  if s = [] then [] else (splitAttrsAux s false []).map parsePair

/-- Test whether some successfully decoded pair of `l` carries the key
`key` (a specification artefact used to state absence of an attribute). -/
def hasKey (key : Str) (l : List (Res (Str × Str))) : Bool :=
  l.any fun p =>
    match p with
    | Except.ok (k, _) => k = key
    | Except.error _ => false

/-- Quote state obtained after scanning `s` starting from state `q`. -/
def scanQ : Str → Bool → Bool
  | [], q => q
  | c :: rest, q => scanQ rest (if c = '"' then !q else q)

/-- The `EXTINF` tag: a duration and an optional title. -/
structure ExtInf where
  duration : Duration
  title : Option Str
deriving DecidableEq

/-- The fixed literal `PREFIX` of `ExtInf`. -/
def extInfMark : Str := toL "#EXTINF:"

/-- `ExtInf::requires_version`. -/
def ExtInf.requires_version (t : ExtInf) : ProtocolVersion :=
  if t.duration.nanos = 0 then ProtocolVersion.v1 else ProtocolVersion.v3

/-- `impl FromStr for ExtInf`: check the fixed tag literal, split the
remainder at the first comma, parse the left part as a decimal duration and
keep the right part, when present, as the verbatim title. -/
def ExtInf.from_str (s : Str) : Res ExtInf :=
  if startsWithL extInfMark s then
    match splitFirst ',' (s.drop extInfMark.length) with
    | (d, none) =>
      match parseDecimal d with
      | Except.ok n => Except.ok ⟨toDuration n, none⟩
      | Except.error e => Except.error e
    | (d, some rest) =>
      match parseDecimal d with
      | Except.ok n =>
        match m3u8New rest with
        | Except.ok ti => Except.ok ⟨toDuration n, some ti⟩
        | Except.error e => Except.error e
      | Except.error e => Except.error e
  else errI

/-- The `EXT-X-BYTERANGE` tag. -/
structure ExtXByteRange where
  range : ByteRange
deriving DecidableEq

/-- The fixed literal `PREFIX` of `ExtXByteRange`. -/
def byteRangeMark : Str := toL "#EXT-X-BYTERANGE:"

/-- `ExtXByteRange::requires_version`: always `V4`. -/
def ExtXByteRange.requires_version (_ : ExtXByteRange) : ProtocolVersion :=
  ProtocolVersion.v4

/-- `impl Display for ExtXByteRange`. -/
def ExtXByteRange.render (t : ExtXByteRange) : Str :=
  byteRangeMark ++ renderByteRange t.range

/-- `impl FromStr for ExtXByteRange`. -/
def ExtXByteRange.from_str (s : Str) : Res ExtXByteRange :=
  if startsWithL byteRangeMark s then
    Except.map ExtXByteRange.mk (parseByteRange (s.drop byteRangeMark.length))
  else errI

/-- The `EXT-X-DISCONTINUITY` marker tag (a unit value). -/
inductive ExtXDiscontinuity where
  | mk
deriving DecidableEq

/-- The fixed literal `PREFIX` of `ExtXDiscontinuity`. -/
def disMark : Str := toL "#EXT-X-DISCONTINUITY"

/-- `ExtXDiscontinuity::requires_version`: always `V1`. -/
def ExtXDiscontinuity.requires_version (_ : ExtXDiscontinuity) : ProtocolVersion :=
  ProtocolVersion.v1

/-- `impl FromStr for ExtXDiscontinuity`: the whole line must equal the tag
literal exactly (`track_assert_eq!`). -/
def ExtXDiscontinuity.from_str (s : Str) : Res ExtXDiscontinuity :=
  if s = disMark then Except.ok ExtXDiscontinuity.mk else errI

/-- Modelled from the spec: the `EncryptionMethod` enumeration of `types.rs`
(`METHOD=NONE` is represented by the absent key record, not here). -/
inductive EncryptionMethod where
  | aes128 | sampleAes
deriving DecidableEq

/-- Modelled from the spec: parsing of an encryption-method literal. -/
def parseMethod (v : Str) : Res EncryptionMethod :=
  if v = toL "AES-128" then Except.ok EncryptionMethod.aes128
  else if v = toL "SAMPLE-AES" then Except.ok EncryptionMethod.sampleAes
  else errI

/-- Modelled from the spec: rendering of an encryption-method literal. -/
def renderMethod : EncryptionMethod → Str
  | EncryptionMethod.aes128 => toL "AES-128"
  | EncryptionMethod.sampleAes => toL "SAMPLE-AES"

/-- Modelled from the spec: the decryption-key record of `types.rs` —
method, URI, optional initialization vector, optional key-format, optional
key-format-versions. -/
structure DecryptionKey where
  method : EncryptionMethod
  uri : Str
  iv : Option Str
  key_format : Option Str
  key_format_versions : Option Str
deriving DecidableEq

/-- Accumulator state while parsing a decryption-key attribute list. -/
structure DKState where
  method : Option EncryptionMethod
  uri : Option Str
  iv : Option Str
  key_format : Option Str
  key_format_versions : Option Str

/-- Modelled from the spec: one attribute step of `DecryptionKey` parsing;
unrecognized keys are silently ignored. -/
def dkStep (st : DKState) (k v : Str) : Res DKState :=
  if k = toL "METHOD" then
    match parseMethod v with
    | Except.ok m => Except.ok {st with method := some m}
    | Except.error e => Except.error e
  else if k = toL "URI" then
    match parseQuoted v with
    | Except.ok q => Except.ok {st with uri := some q}
    | Except.error e => Except.error e
  else if k = toL "IV" then
    match parseHexSeq v with
    | Except.ok h => Except.ok {st with iv := some h}
    | Except.error e => Except.error e
  else if k = toL "KEYFORMAT" then
    match parseQuoted v with
    | Except.ok q => Except.ok {st with key_format := some q}
    | Except.error e => Except.error e
  else if k = toL "KEYFORMATVERSIONS" then
    match parseQuoted v with
    | Except.ok q => Except.ok {st with key_format_versions := some q}
    | Except.error e => Except.error e
  else Except.ok st

/-- Modelled from the spec: the attribute loop of `DecryptionKey` parsing. -/
def dkLoop : DKState → List (Res (Str × Str)) → Res DKState
  | st, [] => Except.ok st
  | _, Except.error e :: _ => Except.error e
  | st, Except.ok (k, v) :: rest =>
    match dkStep st k v with
    | Except.ok st' => dkLoop st' rest
    | Except.error e => Except.error e

/-- The required-field checks closing `DecryptionKey` parsing: the method
and the URI must be present. -/
def dkFinalize (st : DKState) : Res DecryptionKey :=
  match st.method with
  | none => errI
  | some m =>
    match st.uri with
    | none => errI
    | some u => Except.ok ⟨m, u, st.iv, st.key_format, st.key_format_versions⟩

/-- Modelled from the spec: assembling a `DecryptionKey` from its attribute
pairs; the method and the URI are required. -/
def dkFromPairs (l : List (Res (Str × Str))) : Res DecryptionKey :=
  (dkLoop ⟨none, none, none, none, none⟩ l).bind dkFinalize

/-- Modelled from the spec: `DecryptionKey::requires_version` — KEYFORMAT or
KEYFORMATVERSIONS present means `V5`, otherwise IV present means `V2`,
otherwise `V1`. -/
def DecryptionKey.requires_version (k : DecryptionKey) : ProtocolVersion :=
  if k.key_format.isSome || k.key_format_versions.isSome then ProtocolVersion.v5
  else if k.iv.isSome then ProtocolVersion.v2
  else ProtocolVersion.v1

/-- Modelled from the spec: `impl Display for DecryptionKey`. -/
def renderDK (k : DecryptionKey) : Str :=
  toL "METHOD=" ++ renderMethod k.method ++ toL ",URI=" ++ renderQuoted k.uri
    ++ (match k.iv with
        | some h => toL ",IV=" ++ renderHexSeq h
        | none => [])
    ++ (match k.key_format with
        | some q => toL ",KEYFORMAT=" ++ renderQuoted q
        | none => [])
    ++ (match k.key_format_versions with
        | some q => toL ",KEYFORMATVERSIONS=" ++ renderQuoted q
        | none => [])

/-- The `EXT-X-KEY` tag: an optional decryption-key record; `none` stands
for `METHOD=NONE`. -/
structure ExtXKey where
  key : Option DecryptionKey
deriving DecidableEq

/-- The fixed literal `PREFIX` of `ExtXKey`. -/
def keyMark : Str := toL "#EXT-X-KEY:"

/-- The attribute names forbidden together with `METHOD=NONE`. -/
def forbiddenKeys : List Str :=
  [toL "URI", toL "IV", toL "KEYFORMAT", toL "KEYFORMATVERSIONS"]

/-- The loop of `ExtXKey::from_str` in the `METHOD=NONE` branch: every pair
must decode and none of the forbidden attribute names may occur. -/
def keyNoneLoop : List (Res (Str × Str)) → Res ExtXKey
  | [] => Except.ok ⟨none⟩
  | Except.error e :: _ => Except.error e
  | Except.ok (k, _) :: rest => if k ∈ forbiddenKeys then errI else keyNoneLoop rest

/-- `ExtXKey::requires_version`. -/
def ExtXKey.requires_version (t : ExtXKey) : ProtocolVersion :=
  match t.key with
  | none => ProtocolVersion.v1
  | some k => k.requires_version

/-- `impl Display for ExtXKey`: `METHOD=NONE` when the key record is absent. -/
def ExtXKey.render (t : ExtXKey) : Str :=
  keyMark ++ (match t.key with
    | none => toL "METHOD=NONE"
    | some k => renderDK k)

/-- Test of one pair result against the raw pair `METHOD=NONE`
(`a.as_ref().ok() == Some(&("METHOD", "NONE"))`). -/
def isMethodNone (a : Res (Str × Str)) : Bool :=
  match a with
  | Except.ok (k, v) => k = toL "METHOD" && v = toL "NONE"
  | Except.error _ => false

/-- The attribute-level body of `ExtXKey::from_str`: when a raw
`METHOD=NONE` pair occurs, the forbidden-attribute loop runs and the key
record is absent; otherwise the pairs are parsed as a `DecryptionKey`. -/
def ExtXKey.fromAttrs (l : List (Res (Str × Str))) : Res ExtXKey :=
  if l.any isMethodNone then keyNoneLoop l
  else Except.map (fun k => ExtXKey.mk (some k)) (dkFromPairs l)

/-- `impl FromStr for ExtXKey`. -/
def ExtXKey.from_str (s : Str) : Res ExtXKey :=
  if startsWithL keyMark s then
    ExtXKey.fromAttrs (attrPairs (s.drop keyMark.length))
  else errI

/-- The `EXT-X-MAP` tag: a required URI and an optional byte range. -/
structure ExtXMap where
  uri : Str
  range : Option ByteRange
deriving DecidableEq

/-- The fixed literal `PREFIX` of `ExtXMap`. -/
def mapMark : Str := toL "#EXT-X-MAP:"

/-- Accumulator state while parsing an `EXT-X-MAP` attribute list. -/
structure MState where
  uri : Option Str
  range : Option ByteRange

/-- One attribute step of `ExtXMap::from_str`; unrecognized keys are
silently ignored. -/
def mapStep (st : MState) (k v : Str) : Res MState :=
  if k = toL "URI" then
    match parseQuoted v with
    | Except.ok q => Except.ok {st with uri := some q}
    | Except.error e => Except.error e
  else if k = toL "BYTERANGE" then
    match parseByteRange v with
    | Except.ok r => Except.ok {st with range := some r}
    | Except.error e => Except.error e
  else Except.ok st

/-- The attribute loop of `ExtXMap::from_str`. -/
def mapLoop : MState → List (Res (Str × Str)) → Res MState
  | st, [] => Except.ok st
  | _, Except.error e :: _ => Except.error e
  | st, Except.ok (k, v) :: rest =>
    match mapStep st k v with
    | Except.ok st' => mapLoop st' rest
    | Except.error e => Except.error e

/-- The required-field check closing `ExtXMap` parsing: the URI must be
present. -/
def mapFinalize (st : MState) : Res ExtXMap :=
  match st.uri with
  | none => errI
  | some u => Except.ok ⟨u, st.range⟩

/-- Assembly of an `ExtXMap` from its attribute pairs: the URI is required. -/
def ExtXMap.fromAttrs (l : List (Res (Str × Str))) : Res ExtXMap :=
  (mapLoop ⟨none, none⟩ l).bind mapFinalize

/-- `ExtXMap::requires_version`: always `V6`. -/
def ExtXMap.requires_version (_ : ExtXMap) : ProtocolVersion :=
  ProtocolVersion.v6

/-- `impl Display for ExtXMap`. -/
def ExtXMap.render (t : ExtXMap) : Str :=
  mapMark ++ toL "URI=" ++ renderQuoted t.uri
    ++ (match t.range with
        | some r => toL ",BYTERANGE=" ++ renderByteRange r
        | none => [])

/-- `impl FromStr for ExtXMap`. -/
def ExtXMap.from_str (s : Str) : Res ExtXMap :=
  if startsWithL mapMark s then
    ExtXMap.fromAttrs (attrPairs (s.drop mapMark.length))
  else errI

/-- A calendar date (`chrono::NaiveDate`), modelled as year-month-day. -/
structure NDate where
  y : Nat
  m : Nat
  d : Nat
deriving DecidableEq

/-- Leap-year test of the proleptic Gregorian calendar. -/
def isLeap (y : Nat) : Bool := (y % 4 == 0 && y % 100 != 0) || y % 400 == 0

/-- Number of days of a month. -/
def daysInMonth (y m : Nat) : Nat :=
  if m = 2 then (if isLeap y then 29 else 28)
  else if m = 4 ∨ m = 6 ∨ m = 9 ∨ m = 11 then 30
  else 31

/-- Modelled from the spec: `NaiveDate::parse_from_str` with format
`%Y-%m-%d` (the `chrono` crate is external to the provided source). -/
def parseDate (s : Str) : Res NDate :=
  match s with
  | [y1, y2, y3, y4, '-', m1, m2, '-', d1, d2] =>
    if [y1, y2, y3, y4, m1, m2, d1, d2].all Char.isDigit then
      let y := digitsVal [y1, y2, y3, y4]
      let m := digitsVal [m1, m2]
      let d := digitsVal [d1, d2]
      if 1 ≤ m ∧ m ≤ 12 ∧ 1 ≤ d ∧ d ≤ daysInMonth y m then Except.ok ⟨y, m, d⟩
      else errI
    else errI
  | _ => errI

/-- Two-digit zero-padded decimal rendering. -/
def pad2 (n : Nat) : Str := [Nat.digitChar (n / 10 % 10), Nat.digitChar (n % 10)]

/-- Four-digit zero-padded decimal rendering. -/
def pad4 (n : Nat) : Str :=
  [Nat.digitChar (n / 1000 % 10), Nat.digitChar (n / 100 % 10),
   Nat.digitChar (n / 10 % 10), Nat.digitChar (n % 10)]

/-- Modelled from the spec: `NaiveDate::format` with format `%Y-%m-%d`. -/
def fmtDate (d : NDate) : Str := pad4 d.y ++ '-' :: pad2 d.m ++ '-' :: pad2 d.d

/-- A timestamp with an explicit UTC offset (`chrono::DateTime<FixedOffset>`),
modelled as calendar date, time of day with nanoseconds, and an offset in
minutes. -/
structure DateTimeFO where
  date : NDate
  hour : Nat
  minute : Nat
  second : Nat
  nanos : Nat
  offsetMinutes : Int
deriving DecidableEq

/-- Modelled from the spec: parsing of the `±HH:MM` (or `Z`) UTC offset of an
RFC 3339 timestamp. -/
def parseOffset (s : Str) : Res Int :=
  match s with
  | ['Z'] => Except.ok 0
  | [sg, h1, h2, ':', m1, m2] =>
    if (sg = '+' ∨ sg = '-') ∧ [h1, h2, m1, m2].all Char.isDigit then
      let v : Int := Int.ofNat (digitsVal [h1, h2] * 60 + digitsVal [m1, m2])
      Except.ok (if sg = '-' then -v else v)
    else errI
  | _ => errI

/-- Modelled from the spec: RFC 3339 timestamp parsing used by
`ExtXProgramDateTime::from_str` (the `chrono` crate is external to the
provided source). -/
def parsePDT (s : Str) : Res DateTimeFO :=
  match splitFirst 'T' s with
  | (ds, some rest) =>
    match parseDate ds with
    | Except.error e => Except.error e
    | Except.ok date =>
      match rest with
      | h1 :: h2 :: ':' :: m1 :: m2 :: ':' :: s1 :: s2 :: tail =>
        if [h1, h2, m1, m2, s1, s2].all Char.isDigit then
          let hh := digitsVal [h1, h2]
          let mm := digitsVal [m1, m2]
          let ss := digitsVal [s1, s2]
          let fo : Str × Str :=
            match tail with
            | '.' :: more => (more.takeWhile Char.isDigit, more.dropWhile Char.isDigit)
            | _ => ([], tail)
          let frac := fo.1
          let off := fo.2
          if hh < 24 ∧ mm < 60 ∧ ss < 60 ∧ (tail ≠ [] → tail.head? ≠ some '.' ∨ frac ≠ []) then
            match parseOffset off with
            | Except.ok o =>
              Except.ok ⟨date, hh, mm, ss, digitsVal (frac.take 9) * 10 ^ (9 - min 9 frac.length), o⟩
            | Except.error e => Except.error e
          else errI
        else errI
      | _ => errI
  | (_, none) => errI

/-- The `EXT-X-PROGRAM-DATE-TIME` tag: a required timestamp. -/
structure ExtXProgramDateTime where
  date_time : DateTimeFO
deriving DecidableEq

/-- The fixed literal `PREFIX` of `ExtXProgramDateTime`. -/
def pdtMark : Str := toL "#EXT-X-PROGRAM-DATE-TIME:"

/-- `ExtXProgramDateTime::requires_version`: always `V1`. -/
def ExtXProgramDateTime.requires_version (_ : ExtXProgramDateTime) : ProtocolVersion :=
  ProtocolVersion.v1

/-- `impl FromStr for ExtXProgramDateTime`. -/
def ExtXProgramDateTime.from_str (s : Str) : Res ExtXProgramDateTime :=
  if startsWithL pdtMark s then
    Except.map ExtXProgramDateTime.mk (parsePDT (s.drop pdtMark.length))
  else errI

/-- Lexicographic strict order on character lists (the `BTreeMap` key
order). -/
def lexLt : Str → Str → Bool
  | [], [] => false
  | [], _ :: _ => true
  | _ :: _, [] => false
  | a :: x, b :: y => if a < b then true else if b < a then false else lexLt x y

/-- Ordered-map insertion by key, replacing an existing binding
(`BTreeMap::insert`). -/
def insertSorted (k v : Str) : List (Str × Str) → List (Str × Str)
  | [] => [(k, v)]
  | (k', v') :: rest =>
    if k = k' then (k, v) :: rest
    else if lexLt k k' then (k, v) :: (k', v') :: rest
    else (k', v') :: insertSorted k v rest

/-- The `EXT-X-DATERANGE` tag.  The source field `class` is a Lean keyword
and is embedded as `cls`. -/
structure ExtXDateRange where
  id : Str
  cls : Option Str
  start_date : NDate
  end_date : Option NDate
  duration : Option Duration
  planned_duration : Option Duration
  scte35_cmd : Option Str
  scte35_out : Option Str
  scte35_in : Option Str
  end_on_next : Option Yes
  client_attributes : List (Str × Str)
deriving DecidableEq

/-- The fixed literal `PREFIX` of `ExtXDateRange`. -/
def drMark : Str := toL "#EXT-X-DATERANGE:"

/-- Accumulator state while parsing an `EXT-X-DATERANGE` attribute list. -/
structure DRState where
  id : Option Str
  cls : Option Str
  start_date : Option NDate
  end_date : Option NDate
  duration : Option Duration
  planned_duration : Option Duration
  scte35_cmd : Option Str
  scte35_out : Option Str
  scte35_in : Option Str
  end_on_next : Option Yes
  client_attributes : List (Str × Str)

/-- The initial (all-absent) date-range parsing state. -/
def drInit : DRState := ⟨none, none, none, none, none, none, none, none, none, none, []⟩

/-- The START-DATE/END-DATE value decoding of `ExtXDateRange::from_str`:
a quoted string whose content is a `%Y-%m-%d` date. -/
def parseQuotedDate (v : Str) : Res NDate :=
  match parseQuoted v with
  | Except.ok q => parseDate q
  | Except.error e => Except.error e

/-- Classification of a date-range attribute key: the arms of the source's
`match key` on the hyphenated spec-defined names, the `X-` client-attribute
test, and the ignored fallthrough. -/
inductive DRKey where
  | kId | kClass | kStartDate | kEndDate | kDuration | kPlanned
  | kCmd | kOut | kIn | kEon | kClient | kOther
deriving DecidableEq

/-- The case-sensitive key dispatch of `ExtXDateRange::from_str`. -/
def drKeyOf (k : Str) : DRKey :=
  if k = toL "ID" then DRKey.kId
  else if k = toL "CLASS" then DRKey.kClass
  else if k = toL "START-DATE" then DRKey.kStartDate
  else if k = toL "END-DATE" then DRKey.kEndDate
  else if k = toL "DURATION" then DRKey.kDuration
  else if k = toL "PLANNED-DURATION" then DRKey.kPlanned
  else if k = toL "SCTE35-CMD" then DRKey.kCmd
  else if k = toL "SCTE35-OUT" then DRKey.kOut
  else if k = toL "SCTE35-IN" then DRKey.kIn
  else if k = toL "END-ON-NEXT" then DRKey.kEon
  else if startsWithL (toL "X-") k then DRKey.kClient
  else DRKey.kOther

/-- The literal attribute name of each recognized date-range key
classification (`none` for the client-attribute and ignored arms); a
specification artefact inverting `drKeyOf` on recognized keys. -/
def drKeyStr : DRKey → Option Str
  | DRKey.kId => some (toL "ID")
  | DRKey.kClass => some (toL "CLASS")
  | DRKey.kStartDate => some (toL "START-DATE")
  | DRKey.kEndDate => some (toL "END-DATE")
  | DRKey.kDuration => some (toL "DURATION")
  | DRKey.kPlanned => some (toL "PLANNED-DURATION")
  | DRKey.kCmd => some (toL "SCTE35-CMD")
  | DRKey.kOut => some (toL "SCTE35-OUT")
  | DRKey.kIn => some (toL "SCTE35-IN")
  | DRKey.kEon => some (toL "END-ON-NEXT")
  | DRKey.kClient => none
  | DRKey.kOther => none

/-- The branch bodies of one attribute step of `ExtXDateRange::from_str`,
indexed by the key classification. -/
def drStepK (st : DRState) (dk : DRKey) (k v : Str) : Res DRState :=
  match dk with
  | DRKey.kId =>
    match parseQuoted v with
    | Except.ok q => Except.ok {st with id := some q}
    | Except.error e => Except.error e
  | DRKey.kClass =>
    match parseQuoted v with
    | Except.ok q => Except.ok {st with cls := some q}
    | Except.error e => Except.error e
  | DRKey.kStartDate =>
    match parseQuotedDate v with
    | Except.ok nd => Except.ok {st with start_date := some nd}
    | Except.error e => Except.error e
  | DRKey.kEndDate =>
    match parseQuotedDate v with
    | Except.ok nd => Except.ok {st with end_date := some nd}
    | Except.error e => Except.error e
  | DRKey.kDuration =>
    match parseDecimal v with
    | Except.ok n => Except.ok {st with duration := some (toDuration n)}
    | Except.error e => Except.error e
  | DRKey.kPlanned =>
    match parseDecimal v with
    | Except.ok n => Except.ok {st with planned_duration := some (toDuration n)}
    | Except.error e => Except.error e
  | DRKey.kCmd =>
    match parseQuoted v with
    | Except.ok q => Except.ok {st with scte35_cmd := some q}
    | Except.error e => Except.error e
  | DRKey.kOut =>
    match parseQuoted v with
    | Except.ok q => Except.ok {st with scte35_out := some q}
    | Except.error e => Except.error e
  | DRKey.kIn =>
    match parseQuoted v with
    | Except.ok q => Except.ok {st with scte35_in := some q}
    | Except.error e => Except.error e
  | DRKey.kEon =>
    match parseYes v with
    | Except.ok y => Except.ok {st with end_on_next := some y}
    | Except.error e => Except.error e
  | DRKey.kClient =>
    Except.ok {st with client_attributes := insertSorted (k.drop 2) v st.client_attributes}
  | DRKey.kOther => Except.ok st

/-- One attribute step of `ExtXDateRange::from_str`: the hyphenated
spec-defined names are matched case-sensitively, keys carrying an `X-`
start become client attributes with the `X-` stripped, and other
unrecognized keys are silently ignored. -/
def drStep (st : DRState) (k v : Str) : Res DRState :=
  drStepK st (drKeyOf k) k v

/-- The attribute loop of `ExtXDateRange::from_str`. -/
def drLoop : DRState → List (Res (Str × Str)) → Res DRState
  | st, [] => Except.ok st
  | _, Except.error e :: _ => Except.error e
  | st, Except.ok (k, v) :: rest =>
    match drStep st k v with
    | Except.ok st' => drLoop st' rest
    | Except.error e => Except.error e

/-- The final checks of `ExtXDateRange::from_str`: ID and START-DATE are
required, and END-ON-NEXT requires CLASS. -/
def drFinalize (st : DRState) : Res ExtXDateRange :=
  match st.id with
  | none => errI
  | some i =>
    match st.start_date with
    | none => errI
    | some sd =>
      if st.end_on_next.isSome ∧ st.cls = none then errI
      else
        Except.ok ⟨i, st.cls, sd, st.end_date, st.duration, st.planned_duration,
          st.scte35_cmd, st.scte35_out, st.scte35_in, st.end_on_next,
          st.client_attributes⟩

/-- Assembly of an `ExtXDateRange` from its attribute pairs. -/
def ExtXDateRange.fromAttrs (l : List (Res (Str × Str))) : Res ExtXDateRange :=
  (drLoop drInit l).bind drFinalize

/-- `ExtXDateRange::requires_version`: always `V1`. -/
def ExtXDateRange.requires_version (_ : ExtXDateRange) : ProtocolVersion :=
  ProtocolVersion.v1

/-- `impl FromStr for ExtXDateRange`. -/
def ExtXDateRange.from_str (s : Str) : Res ExtXDateRange :=
  if startsWithL drMark s then
    ExtXDateRange.fromAttrs (attrPairs (s.drop drMark.length))
  else errI

/-- Nine-digit zero-padded decimal rendering (sub-second nanoseconds). -/
def pad9 (n : Nat) : Str :=
  [Nat.digitChar (n / 100000000 % 10), Nat.digitChar (n / 10000000 % 10),
   Nat.digitChar (n / 1000000 % 10), Nat.digitChar (n / 100000 % 10),
   Nat.digitChar (n / 10000 % 10), Nat.digitChar (n / 1000 % 10),
   Nat.digitChar (n / 100 % 10), Nat.digitChar (n / 10 % 10),
   Nat.digitChar (n % 10)]

/-- Drop the trailing zeros of a digit run. -/
def trimZeros (l : Str) : Str := (l.reverse.dropWhile (· = '0')).reverse

/-- Modelled from the spec: `Display` of `DecimalFloatingPoint::from_duration`
— the minimal decimal representation of a duration. -/
def renderDurDec (d : Duration) : Str :=
  natToStr d.secs ++ (if d.nanos = 0 then [] else '.' :: trimZeros (pad9 d.nanos))

/-- Rust `{:?}` (Debug) formatting of a string without quotes, backslashes or
control characters inside: the text wrapped in double quotes.  The date
strings this embedding applies it to contain only digits and dashes. -/
def dbgStr (s : Str) : Str := '"' :: s ++ ['"']

/-- `impl Display for ExtXDateRange`, field for field in source order.  Note
the underscore spellings `START_DATE`, `END_DATE`, `PLANNED_DURATION`,
`SCTE35_CMD`, `SCTE35_OUT`, `SCTE35_IN`, `END_ON_NEXT` taken verbatim from
the source, and the client attributes written with their stored (stripped)
keys. -/
def ExtXDateRange.render (t : ExtXDateRange) : Str :=
  drMark ++ toL "ID=" ++ renderQuoted t.id
    ++ (match t.cls with
        | some c => toL ",CLASS=" ++ renderQuoted c
        | none => [])
    ++ toL ",START_DATE=" ++ dbgStr (fmtDate t.start_date)
    ++ (match t.end_date with
        | some d => toL ",END_DATE=" ++ dbgStr (fmtDate d)
        | none => [])
    ++ (match t.duration with
        | some d => toL ",DURATION=" ++ renderDurDec d
        | none => [])
    ++ (match t.planned_duration with
        | some d => toL ",PLANNED_DURATION=" ++ renderDurDec d
        | none => [])
    ++ (match t.scte35_cmd with
        | some x => toL ",SCTE35_CMD=" ++ renderQuoted x
        | none => [])
    ++ (match t.scte35_out with
        | some x => toL ",SCTE35_OUT=" ++ renderQuoted x
        | none => [])
    ++ (match t.scte35_in with
        | some x => toL ",SCTE35_IN=" ++ renderQuoted x
        | none => [])
    ++ (match t.end_on_next with
        | some _ => toL ",END_ON_NEXT=YES"
        | none => [])
    ++ (t.client_attributes.foldl (fun acc kv => acc ++ ',' :: kv.1 ++ '=' :: kv.2) [])

/-- A validly constructed minimal date-range tag: the required ID and
START-DATE fields populated, every optional field absent. -/
def drC1 : ExtXDateRange :=
  ⟨toL "x", none, ⟨2010, 1, 1⟩, none, none, none, none, none, none, none, []⟩

theorem startsWithL_app (p x : Str) : startsWithL p (p ++ x) = true := by
  induction p with
  | nil => rfl
  | cons c cs ih => simp [startsWithL, ih]

theorem dropLen_app (p x : Str) : (p ++ x).drop p.length = x := by
  induction p with
  | nil => rfl
  | cons c cs ih =>
    simp only [List.cons_append, List.length_cons, List.drop_succ_cons]
    exact ih

theorem splitFirst_no_mem {c : Char} {d : Str} (h : ∀ a ∈ d, a ≠ c) :
    splitFirst c d = (d, none) := by
  induction d with
  | nil => rfl
  | cons x xs ih =>
    have hx : x ≠ c := h x (List.mem_cons_self x xs)
    have hxs : ∀ a ∈ xs, a ≠ c := fun a ha => h a (List.mem_cons_of_mem x ha)
    simp [splitFirst, hx, ih hxs]

theorem splitFirst_app {c : Char} {d : Str} (r : Str) (h : ∀ a ∈ d, a ≠ c) :
    splitFirst c (d ++ c :: r) = (d, some r) := by
  induction d with
  | nil => simp [splitFirst]
  | cons x xs ih =>
    have hx : x ≠ c := h x (List.mem_cons_self x xs)
    have hxs : ∀ a ∈ xs, a ≠ c := fun a ha => h a (List.mem_cons_of_mem x ha)
    simp [splitFirst, hx, ih hxs]

theorem startsWithL_self (p : Str) : startsWithL p p = true := by
  have := startsWithL_app p []
  simpa using this

/-- C1: the round-trip law fails on the code.  Rendering the validly
constructed date-range tag `drC1` and parsing the result yields
`InvalidInput` instead of `drC1`, because `Display` for `ExtXDateRange`
writes the attribute name `START_DATE` (underscore) while `FromStr` only
recognizes `START-DATE` (hyphen), so the rendered required attribute is
ignored as unrecognized and the required-field check fails. -/
theorem claim_C1_daterange_roundtrip_fails :
    ExtXDateRange.render drC1 =
      toL "#EXT-X-DATERANGE:ID=\"x\",START_DATE=\"2010-01-01\"" ∧
    ExtXDateRange.from_str (ExtXDateRange.render drC1) = Except.error ErrK.invalidInput ∧
    ExtXDateRange.from_str (ExtXDateRange.render drC1) ≠ Except.ok drC1 := by
  refine ⟨by decide, by decide, by decide⟩

/-- C2: `ExtInf::requires_version` returns V1 exactly when the duration is a
whole number of seconds (zero subsecond nanoseconds) and V3 otherwise. -/
theorem claim_C2_extinf_version (t : ExtInf) :
    (t.duration.nanos = 0 → t.requires_version = ProtocolVersion.v1) ∧
    (t.duration.nanos ≠ 0 → t.requires_version = ProtocolVersion.v3) := by
  constructor <;> intro h <;> simp [ExtInf.requires_version, h]

theorem claim_C2_witness :
    (ExtInf.mk ⟨5, 0⟩ none).requires_version = ProtocolVersion.v1 ∧
    (ExtInf.mk ⟨1, 234000000⟩ (some (toL "Sample Title"))).requires_version =
      ProtocolVersion.v3 :=
  ⟨(claim_C2_extinf_version ⟨⟨5, 0⟩, none⟩).1 rfl,
   (claim_C2_extinf_version ⟨⟨1, 234000000⟩, some (toL "Sample Title")⟩).2 (by decide)⟩

/-- C8: `requires_version` is a total constant function for the fixed-version
tags — V4 for every byte-range tag, V6 for every map tag, V1 for every
discontinuity marker and every program-date-time tag, independent of the
field contents. -/
theorem claim_C8_fixed_versions (b : ExtXByteRange) (m : ExtXMap)
    (d : ExtXDiscontinuity) (p : ExtXProgramDateTime) :
    b.requires_version = ProtocolVersion.v4 ∧
    m.requires_version = ProtocolVersion.v6 ∧
    d.requires_version = ProtocolVersion.v1 ∧
    p.requires_version = ProtocolVersion.v1 :=
  ⟨rfl, rfl, rfl, rfl⟩

/-- C9: `ExtXDateRange::requires_version` returns V1 for every date-range
value, whatever optional fields are populated. -/
theorem claim_C9_daterange_version (t : ExtXDateRange) :
    t.requires_version = ProtocolVersion.v1 := rfl

/-- C5: every tag's parse fails with `InvalidInput` on any input that does
not start with that tag's exact, case-sensitive tag literal, and the
discontinuity marker parses successfully exactly when the whole input equals
its literal, with no trailing content. -/
theorem claim_C5_tag_literal_rejection (s : Str) :
    (startsWithL extInfMark s = false → ExtInf.from_str s = errI) ∧
    (startsWithL byteRangeMark s = false → ExtXByteRange.from_str s = errI) ∧
    (startsWithL disMark s = false → ExtXDiscontinuity.from_str s = errI) ∧
    (startsWithL keyMark s = false → ExtXKey.from_str s = errI) ∧
    (startsWithL mapMark s = false → ExtXMap.from_str s = errI) ∧
    (startsWithL pdtMark s = false → ExtXProgramDateTime.from_str s = errI) ∧
    (startsWithL drMark s = false → ExtXDateRange.from_str s = errI) ∧
    (ExtXDiscontinuity.from_str s = Except.ok ExtXDiscontinuity.mk ↔ s = disMark) := by
  refine ⟨?_, ?_, ?_, ?_, ?_, ?_, ?_, ?_⟩
  · intro h; simp [ExtInf.from_str, h]
  · intro h; simp [ExtXByteRange.from_str, h]
  · intro h
    have hne : s ≠ disMark := by
      intro he; rw [he, startsWithL_self] at h; exact absurd h (by decide)
    simp [ExtXDiscontinuity.from_str, hne]
  · intro h; simp [ExtXKey.from_str, h]
  · intro h; simp [ExtXMap.from_str, h]
  · intro h; simp [ExtXProgramDateTime.from_str, h]
  · intro h; simp [ExtXDateRange.from_str, h]
  · constructor
    · intro h
      by_contra hne
      simp [ExtXDiscontinuity.from_str, hne, errI] at h
    · intro h; simp [ExtXDiscontinuity.from_str, h]

theorem claim_C5_witness :
    ExtInf.from_str (toL "hello") = errI ∧
    ExtXByteRange.from_str (toL "hello") = errI ∧
    ExtXDiscontinuity.from_str (toL "hello") = errI ∧
    ExtXKey.from_str (toL "hello") = errI ∧
    ExtXMap.from_str (toL "hello") = errI ∧
    ExtXProgramDateTime.from_str (toL "hello") = errI ∧
    ExtXDateRange.from_str (toL "hello") = errI ∧
    ExtXDiscontinuity.from_str (toL "#EXT-X-DISCONTINUITY") =
      Except.ok ExtXDiscontinuity.mk ∧
    ExtXDiscontinuity.from_str (toL "#EXT-X-DISCONTINUITYx") = errI :=
  ⟨(claim_C5_tag_literal_rejection (toL "hello")).1 (by decide),
   (claim_C5_tag_literal_rejection (toL "hello")).2.1 (by decide),
   (claim_C5_tag_literal_rejection (toL "hello")).2.2.1 (by decide),
   (claim_C5_tag_literal_rejection (toL "hello")).2.2.2.1 (by decide),
   (claim_C5_tag_literal_rejection (toL "hello")).2.2.2.2.1 (by decide),
   (claim_C5_tag_literal_rejection (toL "hello")).2.2.2.2.2.1 (by decide),
   (claim_C5_tag_literal_rejection (toL "hello")).2.2.2.2.2.2.1 (by decide),
   (claim_C5_tag_literal_rejection (toL "#EXT-X-DISCONTINUITY")).2.2.2.2.2.2.2.mpr
     (by decide),
   by
     cases hfs : ExtXDiscontinuity.from_str (toL "#EXT-X-DISCONTINUITYx") with
     | error e => cases e; rfl
     | ok a =>
       cases a
       have hcon :=
         (claim_C5_tag_literal_rejection (toL "#EXT-X-DISCONTINUITYx")).2.2.2.2.2.2.2.mp hfs
       exact absurd hcon (by decide)⟩

theorem any_isMethodNone_of_mem {l : List (Res (Str × Str))}
    (h : Except.ok (toL "METHOD", toL "NONE") ∈ l) : l.any isMethodNone = true := by
  refine List.any_eq_true.mpr ⟨_, h, ?_⟩
  simp [isMethodNone]

theorem keyNoneLoop_err {l : List (Res (Str × Str))} {k v : Str}
    (hkv : Except.ok (k, v) ∈ l) (hk : k ∈ forbiddenKeys) :
    keyNoneLoop l = errI := by
  induction l with
  | nil => cases hkv
  | cons p rest ih =>
    cases p with
    | error e => cases e; rfl
    | ok kv =>
      obtain ⟨k', v'⟩ := kv
      rcases List.mem_cons.mp hkv with he | ht
      · obtain ⟨h1, h2⟩ := Prod.mk.injEq .. ▸ Except.ok.inj he.symm
        rw [keyNoneLoop, if_pos (h1 ▸ hk)]
      · by_cases hf : k' ∈ forbiddenKeys
        · rw [keyNoneLoop, if_pos hf]
        · rw [keyNoneLoop, if_neg hf]
          exact ih ht

theorem drKeyOf_facts (k : Str) :
    (drKeyOf k = DRKey.kId → k = toL "ID") ∧
    (drKeyOf k = DRKey.kClass → k = toL "CLASS") ∧
    (drKeyOf k = DRKey.kStartDate → k = toL "START-DATE") ∧
    (drKeyOf k = DRKey.kEon → k = toL "END-ON-NEXT") := by
  rw [drKeyOf]
  rcases eq_or_ne k (toL "ID") with h1 | h1
  · rw [if_pos h1]
    exact ⟨fun _ => h1, fun h => absurd h (by decide), fun h => absurd h (by decide),
      fun h => absurd h (by decide)⟩
  rw [if_neg h1]
  rcases eq_or_ne k (toL "CLASS") with h2 | h2
  · rw [if_pos h2]
    exact ⟨fun h => absurd h (by decide), fun _ => h2, fun h => absurd h (by decide),
      fun h => absurd h (by decide)⟩
  rw [if_neg h2]
  rcases eq_or_ne k (toL "START-DATE") with h3 | h3
  · rw [if_pos h3]
    exact ⟨fun h => absurd h (by decide), fun h => absurd h (by decide), fun _ => h3,
      fun h => absurd h (by decide)⟩
  rw [if_neg h3]
  rcases eq_or_ne k (toL "END-DATE") with h4 | h4
  · rw [if_pos h4]
    exact ⟨fun h => absurd h (by decide), fun h => absurd h (by decide),
      fun h => absurd h (by decide), fun h => absurd h (by decide)⟩
  rw [if_neg h4]
  rcases eq_or_ne k (toL "DURATION") with h5 | h5
  · rw [if_pos h5]
    exact ⟨fun h => absurd h (by decide), fun h => absurd h (by decide),
      fun h => absurd h (by decide), fun h => absurd h (by decide)⟩
  rw [if_neg h5]
  rcases eq_or_ne k (toL "PLANNED-DURATION") with h6 | h6
  · rw [if_pos h6]
    exact ⟨fun h => absurd h (by decide), fun h => absurd h (by decide),
      fun h => absurd h (by decide), fun h => absurd h (by decide)⟩
  rw [if_neg h6]
  rcases eq_or_ne k (toL "SCTE35-CMD") with h7 | h7
  · rw [if_pos h7]
    exact ⟨fun h => absurd h (by decide), fun h => absurd h (by decide),
      fun h => absurd h (by decide), fun h => absurd h (by decide)⟩
  rw [if_neg h7]
  rcases eq_or_ne k (toL "SCTE35-OUT") with h8 | h8
  · rw [if_pos h8]
    exact ⟨fun h => absurd h (by decide), fun h => absurd h (by decide),
      fun h => absurd h (by decide), fun h => absurd h (by decide)⟩
  rw [if_neg h8]
  rcases eq_or_ne k (toL "SCTE35-IN") with h9 | h9
  · rw [if_pos h9]
    exact ⟨fun h => absurd h (by decide), fun h => absurd h (by decide),
      fun h => absurd h (by decide), fun h => absurd h (by decide)⟩
  rw [if_neg h9]
  rcases eq_or_ne k (toL "END-ON-NEXT") with h10 | h10
  · rw [if_pos h10]
    exact ⟨fun h => absurd h (by decide), fun h => absurd h (by decide),
      fun h => absurd h (by decide), fun _ => h10⟩
  rw [if_neg h10]
  cases startsWithL (toL "X-") k <;>
    exact ⟨fun h => absurd h (by decide), fun h => absurd h (by decide),
      fun h => absurd h (by decide), fun h => absurd h (by decide)⟩

theorem drKeyOf_other {k : Str} (h1 : k ≠ toL "ID") (h2 : k ≠ toL "CLASS")
    (h3 : k ≠ toL "START-DATE") (h4 : k ≠ toL "END-DATE")
    (h5 : k ≠ toL "DURATION") (h6 : k ≠ toL "PLANNED-DURATION")
    (h7 : k ≠ toL "SCTE35-CMD") (h8 : k ≠ toL "SCTE35-OUT")
    (h9 : k ≠ toL "SCTE35-IN") (h10 : k ≠ toL "END-ON-NEXT")
    (hx : startsWithL (toL "X-") k = false) : drKeyOf k = DRKey.kOther := by
  rw [drKeyOf, if_neg h1, if_neg h2, if_neg h3, if_neg h4, if_neg h5, if_neg h6,
    if_neg h7, if_neg h8, if_neg h9, if_neg h10,
    if_neg (show ¬(startsWithL (toL "X-") k = true) from by simp [hx])]

theorem drKeyOf_inv {k : Str} {dk : DRKey} (h : drKeyOf k = dk) {s : Str}
    (hs : drKeyStr dk = some s) : k = s := by
  rw [drKeyOf] at h
  rcases eq_or_ne k (toL "ID") with h1 | h1
  · rw [if_pos h1] at h
    subst h
    injection hs with hs2
    exact h1.trans hs2
  rw [if_neg h1] at h
  rcases eq_or_ne k (toL "CLASS") with h2 | h2
  · rw [if_pos h2] at h
    subst h
    injection hs with hs2
    exact h2.trans hs2
  rw [if_neg h2] at h
  rcases eq_or_ne k (toL "START-DATE") with h3 | h3
  · rw [if_pos h3] at h
    subst h
    injection hs with hs2
    exact h3.trans hs2
  rw [if_neg h3] at h
  rcases eq_or_ne k (toL "END-DATE") with h4 | h4
  · rw [if_pos h4] at h
    subst h
    injection hs with hs2
    exact h4.trans hs2
  rw [if_neg h4] at h
  rcases eq_or_ne k (toL "DURATION") with h5 | h5
  · rw [if_pos h5] at h
    subst h
    injection hs with hs2
    exact h5.trans hs2
  rw [if_neg h5] at h
  rcases eq_or_ne k (toL "PLANNED-DURATION") with h6 | h6
  · rw [if_pos h6] at h
    subst h
    injection hs with hs2
    exact h6.trans hs2
  rw [if_neg h6] at h
  rcases eq_or_ne k (toL "SCTE35-CMD") with h7 | h7
  · rw [if_pos h7] at h
    subst h
    injection hs with hs2
    exact h7.trans hs2
  rw [if_neg h7] at h
  rcases eq_or_ne k (toL "SCTE35-OUT") with h8 | h8
  · rw [if_pos h8] at h
    subst h
    injection hs with hs2
    exact h8.trans hs2
  rw [if_neg h8] at h
  rcases eq_or_ne k (toL "SCTE35-IN") with h9 | h9
  · rw [if_pos h9] at h
    subst h
    injection hs with hs2
    exact h9.trans hs2
  rw [if_neg h9] at h
  rcases eq_or_ne k (toL "END-ON-NEXT") with h10 | h10
  · rw [if_pos h10] at h
    subst h
    injection hs with hs2
    exact h10.trans hs2
  rw [if_neg h10] at h
  cases hx : startsWithL (toL "X-") k
  · rw [if_neg (show ¬(startsWithL (toL "X-") k = true) from by simp [hx])] at h
    subst h
    exact Option.noConfusion hs
  · rw [if_pos hx] at h
    subst h
    exact Option.noConfusion hs

theorem drStep_id_of_ne {st st' : DRState} {k v : Str} (hk : k ≠ toL "ID")
    (h : drStep st k v = Except.ok st') : st'.id = st.id := by
  unfold drStep at h
  cases hc : drKeyOf k
  case kId => exact absurd ((drKeyOf_facts k).1 hc) hk
  all_goals rw [hc] at h
  all_goals simp only [drStepK] at h
  all_goals try split at h
  all_goals try exact Except.noConfusion h
  all_goals (injection h with h2; subst h2; rfl)

theorem drStep_cls_of_ne {st st' : DRState} {k v : Str} (hk : k ≠ toL "CLASS")
    (h : drStep st k v = Except.ok st') : st'.cls = st.cls := by
  unfold drStep at h
  cases hc : drKeyOf k
  case kClass => exact absurd ((drKeyOf_facts k).2.1 hc) hk
  all_goals rw [hc] at h
  all_goals simp only [drStepK] at h
  all_goals try split at h
  all_goals try exact Except.noConfusion h
  all_goals (injection h with h2; subst h2; rfl)

theorem drStep_sd_of_ne {st st' : DRState} {k v : Str} (hk : k ≠ toL "START-DATE")
    (h : drStep st k v = Except.ok st') : st'.start_date = st.start_date := by
  unfold drStep at h
  cases hc : drKeyOf k
  case kStartDate => exact absurd ((drKeyOf_facts k).2.2.1 hc) hk
  all_goals rw [hc] at h
  all_goals simp only [drStepK] at h
  all_goals try split at h
  all_goals try exact Except.noConfusion h
  all_goals (injection h with h2; subst h2; rfl)

theorem drStep_eon_mono {st st' : DRState} {k v : Str}
    (h : drStep st k v = Except.ok st') (hs : st.end_on_next.isSome = true) :
    st'.end_on_next.isSome = true := by
  unfold drStep at h
  cases hc : drKeyOf k
  all_goals rw [hc] at h
  all_goals simp only [drStepK] at h
  all_goals try split at h
  all_goals try exact Except.noConfusion h
  all_goals (injection h with h2; subst h2; first | rfl | exact hs)

theorem drStep_eon_set {st st' : DRState} {v : Str}
    (h : drStep st (toL "END-ON-NEXT") v = Except.ok st') :
    st'.end_on_next.isSome = true := by
  unfold drStep at h
  rw [show drKeyOf (toL "END-ON-NEXT") = DRKey.kEon from by decide] at h
  simp only [drStepK] at h
  split at h
  · injection h with h2; subst h2; rfl
  · exact Except.noConfusion h

theorem drStep_ed_of_ne {st st' : DRState} {k v : Str} (hk : k ≠ toL "END-DATE")
    (h : drStep st k v = Except.ok st') : st'.end_date = st.end_date := by
  unfold drStep at h
  cases hc : drKeyOf k
  case kEndDate => exact absurd (drKeyOf_inv hc rfl) hk
  all_goals rw [hc] at h
  all_goals simp only [drStepK] at h
  all_goals try split at h
  all_goals try exact Except.noConfusion h
  all_goals (injection h with h2; subst h2; rfl)

theorem drStep_dur_of_ne {st st' : DRState} {k v : Str} (hk : k ≠ toL "DURATION")
    (h : drStep st k v = Except.ok st') : st'.duration = st.duration := by
  unfold drStep at h
  cases hc : drKeyOf k
  case kDuration => exact absurd (drKeyOf_inv hc rfl) hk
  all_goals rw [hc] at h
  all_goals simp only [drStepK] at h
  all_goals try split at h
  all_goals try exact Except.noConfusion h
  all_goals (injection h with h2; subst h2; rfl)

theorem drStep_plan_of_ne {st st' : DRState} {k v : Str}
    (hk : k ≠ toL "PLANNED-DURATION") (h : drStep st k v = Except.ok st') :
    st'.planned_duration = st.planned_duration := by
  unfold drStep at h
  cases hc : drKeyOf k
  case kPlanned => exact absurd (drKeyOf_inv hc rfl) hk
  all_goals rw [hc] at h
  all_goals simp only [drStepK] at h
  all_goals try split at h
  all_goals try exact Except.noConfusion h
  all_goals (injection h with h2; subst h2; rfl)

theorem drStep_cmd_of_ne {st st' : DRState} {k v : Str} (hk : k ≠ toL "SCTE35-CMD")
    (h : drStep st k v = Except.ok st') : st'.scte35_cmd = st.scte35_cmd := by
  unfold drStep at h
  cases hc : drKeyOf k
  case kCmd => exact absurd (drKeyOf_inv hc rfl) hk
  all_goals rw [hc] at h
  all_goals simp only [drStepK] at h
  all_goals try split at h
  all_goals try exact Except.noConfusion h
  all_goals (injection h with h2; subst h2; rfl)

theorem drStep_out_of_ne {st st' : DRState} {k v : Str} (hk : k ≠ toL "SCTE35-OUT")
    (h : drStep st k v = Except.ok st') : st'.scte35_out = st.scte35_out := by
  unfold drStep at h
  cases hc : drKeyOf k
  case kOut => exact absurd (drKeyOf_inv hc rfl) hk
  all_goals rw [hc] at h
  all_goals simp only [drStepK] at h
  all_goals try split at h
  all_goals try exact Except.noConfusion h
  all_goals (injection h with h2; subst h2; rfl)

theorem drStep_in_of_ne {st st' : DRState} {k v : Str} (hk : k ≠ toL "SCTE35-IN")
    (h : drStep st k v = Except.ok st') : st'.scte35_in = st.scte35_in := by
  unfold drStep at h
  cases hc : drKeyOf k
  case kIn => exact absurd (drKeyOf_inv hc rfl) hk
  all_goals rw [hc] at h
  all_goals simp only [drStepK] at h
  all_goals try split at h
  all_goals try exact Except.noConfusion h
  all_goals (injection h with h2; subst h2; rfl)

theorem drStep_eon_of_ne {st st' : DRState} {k v : Str} (hk : k ≠ toL "END-ON-NEXT")
    (h : drStep st k v = Except.ok st') : st'.end_on_next = st.end_on_next := by
  unfold drStep at h
  cases hc : drKeyOf k
  case kEon => exact absurd (drKeyOf_inv hc rfl) hk
  all_goals rw [hc] at h
  all_goals simp only [drStepK] at h
  all_goals try split at h
  all_goals try exact Except.noConfusion h
  all_goals (injection h with h2; subst h2; rfl)

theorem drLoop_id_of_not_mem {l : List (Res (Str × Str))} :
    ∀ {st st' : DRState}, (∀ v, Except.ok (toL "ID", v) ∉ l) →
      drLoop st l = Except.ok st' → st'.id = st.id := by
  induction l with
  | nil =>
    intro st st' _ h
    injection h with h2
    subst h2
    rfl
  | cons p rest ih =>
    intro st st' hmem h
    cases p with
    | error e => exact Except.noConfusion h
    | ok kv =>
      obtain ⟨k, v⟩ := kv
      simp only [drLoop] at h
      rcases hs : drStep st k v with e | st1 <;> rw [hs] at h
      · exact Except.noConfusion h
      · have hk : k ≠ toL "ID" := by
          intro he
          refine hmem v ?_
          rw [← he]
          exact List.mem_cons_self _ _
        have htail : ∀ w, Except.ok (toL "ID", w) ∉ rest :=
          fun w hw => hmem w (List.mem_cons_of_mem _ hw)
        rw [ih htail h, drStep_id_of_ne hk hs]

theorem drLoop_cls_of_not_mem {l : List (Res (Str × Str))} :
    ∀ {st st' : DRState}, (∀ v, Except.ok (toL "CLASS", v) ∉ l) →
      drLoop st l = Except.ok st' → st'.cls = st.cls := by
  induction l with
  | nil =>
    intro st st' _ h
    injection h with h2
    subst h2
    rfl
  | cons p rest ih =>
    intro st st' hmem h
    cases p with
    | error e => exact Except.noConfusion h
    | ok kv =>
      obtain ⟨k, v⟩ := kv
      simp only [drLoop] at h
      rcases hs : drStep st k v with e | st1 <;> rw [hs] at h
      · exact Except.noConfusion h
      · have hk : k ≠ toL "CLASS" := by
          intro he
          refine hmem v ?_
          rw [← he]
          exact List.mem_cons_self _ _
        have htail : ∀ w, Except.ok (toL "CLASS", w) ∉ rest :=
          fun w hw => hmem w (List.mem_cons_of_mem _ hw)
        rw [ih htail h, drStep_cls_of_ne hk hs]

theorem drLoop_sd_of_not_mem {l : List (Res (Str × Str))} :
    ∀ {st st' : DRState}, (∀ v, Except.ok (toL "START-DATE", v) ∉ l) →
      drLoop st l = Except.ok st' → st'.start_date = st.start_date := by
  induction l with
  | nil =>
    intro st st' _ h
    injection h with h2
    subst h2
    rfl
  | cons p rest ih =>
    intro st st' hmem h
    cases p with
    | error e => exact Except.noConfusion h
    | ok kv =>
      obtain ⟨k, v⟩ := kv
      simp only [drLoop] at h
      rcases hs : drStep st k v with e | st1 <;> rw [hs] at h
      · exact Except.noConfusion h
      · have hk : k ≠ toL "START-DATE" := by
          intro he
          refine hmem v ?_
          rw [← he]
          exact List.mem_cons_self _ _
        have htail : ∀ w, Except.ok (toL "START-DATE", w) ∉ rest :=
          fun w hw => hmem w (List.mem_cons_of_mem _ hw)
        rw [ih htail h, drStep_sd_of_ne hk hs]

theorem drLoop_eon_mono {l : List (Res (Str × Str))} :
    ∀ {st st' : DRState}, drLoop st l = Except.ok st' →
      st.end_on_next.isSome = true → st'.end_on_next.isSome = true := by
  induction l with
  | nil =>
    intro st st' h hs
    injection h with h2
    subst h2
    exact hs
  | cons p rest ih =>
    intro st st' h hs
    cases p with
    | error e => exact Except.noConfusion h
    | ok kv =>
      obtain ⟨k, v⟩ := kv
      simp only [drLoop] at h
      rcases hstep : drStep st k v with e | st1 <;> rw [hstep] at h
      · exact Except.noConfusion h
      · exact ih h (drStep_eon_mono hstep hs)

theorem drLoop_eon_of_mem {l : List (Res (Str × Str))} :
    ∀ {st st' : DRState} {v : Str}, Except.ok (toL "END-ON-NEXT", v) ∈ l →
      drLoop st l = Except.ok st' → st'.end_on_next.isSome = true := by
  induction l with
  | nil =>
    intro st st' v hmem _
    cases hmem
  | cons p rest ih =>
    intro st st' v hmem h
    cases p with
    | error e => exact Except.noConfusion h
    | ok kv =>
      obtain ⟨k, w⟩ := kv
      simp only [drLoop] at h
      rcases hstep : drStep st k w with e | st1 <;> rw [hstep] at h
      · exact Except.noConfusion h
      · rcases List.mem_cons.mp hmem with he | ht
        · obtain ⟨hk, hv⟩ := Prod.mk.injEq .. ▸ Except.ok.inj he.symm
          subst hk
          exact drLoop_eon_mono h (drStep_eon_set hstep)
        · exact ih ht h

theorem dr_from_str_app (t : Str) :
    ExtXDateRange.from_str (drMark ++ t) = ExtXDateRange.fromAttrs (attrPairs t) := by
  rw [ExtXDateRange.from_str, if_pos (startsWithL_app drMark t), dropLen_app drMark t]

/-- C4: date-range parsing fails with `InvalidInput` when the required ID or
START-DATE attribute is missing, or when END-ON-NEXT is present without
CLASS; and every successfully parsed date-range with `end_on_next` set also
has `cls` set. -/
theorem claim_C4_daterange_invariants (t : Str) :
    ((∀ v, Except.ok (toL "ID", v) ∉ attrPairs t) →
      ExtXDateRange.from_str (drMark ++ t) = errI) ∧
    ((∀ v, Except.ok (toL "START-DATE", v) ∉ attrPairs t) →
      ExtXDateRange.from_str (drMark ++ t) = errI) ∧
    (∀ v, Except.ok (toL "END-ON-NEXT", v) ∈ attrPairs t →
      (∀ w, Except.ok (toL "CLASS", w) ∉ attrPairs t) →
      ExtXDateRange.from_str (drMark ++ t) = errI) ∧
    (∀ d, ExtXDateRange.from_str (drMark ++ t) = Except.ok d →
      d.end_on_next.isSome = true → d.cls.isSome = true) := by
  rw [dr_from_str_app]
  refine ⟨?_, ?_, ?_, ?_⟩
  · intro hmem
    rw [ExtXDateRange.fromAttrs]
    rcases hl : drLoop drInit (attrPairs t) with e | st
    · cases e; rfl
    · have hid : st.id = none := drLoop_id_of_not_mem hmem hl
      simp only [Except.bind, drFinalize, hid]
  · intro hmem
    rw [ExtXDateRange.fromAttrs]
    rcases hl : drLoop drInit (attrPairs t) with e | st
    · cases e; rfl
    · have hsd : st.start_date = none := drLoop_sd_of_not_mem hmem hl
      simp only [Except.bind, drFinalize, hsd]
      rcases st.id with _ | i <;> rfl
  · intro v hvmem hmem
    rw [ExtXDateRange.fromAttrs]
    rcases hl : drLoop drInit (attrPairs t) with e | st
    · cases e; rfl
    · have hcls : st.cls = none := drLoop_cls_of_not_mem hmem hl
      have heon : st.end_on_next.isSome = true := drLoop_eon_of_mem hvmem hl
      simp only [Except.bind, drFinalize]
      split
      · rfl
      split
      · rfl
      rw [if_pos ⟨heon, hcls⟩]
  · intro d h he
    rw [ExtXDateRange.fromAttrs] at h
    rcases hl : drLoop drInit (attrPairs t) with e | st <;> rw [hl] at h
    · exact Except.noConfusion h
    · simp only [Except.bind, drFinalize] at h
      split at h
      · exact Except.noConfusion h
      split at h
      · exact Except.noConfusion h
      by_cases hc : st.end_on_next.isSome = true ∧ st.cls = none
      · rw [if_pos hc] at h
        exact Except.noConfusion h
      · rw [if_neg hc] at h
        injection h with h2
        subst h2
        show st.cls.isSome = true
        have he' : st.end_on_next.isSome = true := he
        rcases hcl : st.cls with _ | c
        · exact absurd ⟨he', hcl⟩ hc
        · rfl

theorem not_mem_of_hasKey_false {key : Str} {l : List (Res (Str × Str))}
    (h : hasKey key l = false) : ∀ v, Except.ok (key, v) ∉ l := by
  intro v hv
  have ht : hasKey key l = true := List.any_eq_true.mpr ⟨_, hv, by simp⟩
  rw [h] at ht
  exact Bool.noConfusion ht

theorem claim_C4_witness :
    ExtXDateRange.from_str (drMark ++ toL "ID=\"x\",END-ON-NEXT=YES") = errI ∧
    ExtXDateRange.from_str (drMark ++ toL "START-DATE=\"2010-01-01\"") = errI ∧
    ExtXDateRange.from_str (drMark ++ toL "ID=\"x\"") = errI :=
  ⟨(claim_C4_daterange_invariants (toL "ID=\"x\",END-ON-NEXT=YES")).2.2.1
      (toL "YES") (by decide) (not_mem_of_hasKey_false (by decide)),
   (claim_C4_daterange_invariants (toL "START-DATE=\"2010-01-01\"")).1
      (not_mem_of_hasKey_false (by decide)),
   (claim_C4_daterange_invariants (toL "ID=\"x\"")).2.1
      (not_mem_of_hasKey_false (by decide))⟩

theorem mapStep_uri_of_ne {st st' : MState} {k v : Str} (hk : k ≠ toL "URI")
    (h : mapStep st k v = Except.ok st') : st'.uri = st.uri := by
  rw [mapStep, if_neg hk] at h
  rcases eq_or_ne k (toL "BYTERANGE") with hb | hb
  · rw [if_pos hb] at h
    rcases hr : parseByteRange v with e | r <;> rw [hr] at h
    · exact Except.noConfusion h
    · injection h with h2; subst h2; rfl
  · rw [if_neg hb] at h
    injection h with h2; subst h2; rfl

theorem mapStep_unknown {st : MState} {k v : Str} (h1 : k ≠ toL "URI")
    (h2 : k ≠ toL "BYTERANGE") : mapStep st k v = Except.ok st := by
  rw [mapStep, if_neg h1, if_neg h2]

theorem mapStep_uri_set {st : MState} {v u : Str} (hv : parseQuoted v = Except.ok u) :
    mapStep st (toL "URI") v = Except.ok {st with uri := some u} := by
  rw [mapStep, if_pos rfl, hv]

theorem mapLoop_app (l1 l2 : List (Res (Str × Str))) :
    ∀ st, mapLoop st (l1 ++ l2) = (mapLoop st l1).bind fun st1 => mapLoop st1 l2 := by
  induction l1 with
  | nil => intro st; rfl
  | cons p rest ih =>
    intro st
    cases p with
    | error e => rfl
    | ok kv =>
      obtain ⟨k, v⟩ := kv
      simp only [List.cons_append, mapLoop]
      rcases hs : mapStep st k v with e | st1
      · rfl
      · exact ih st1

theorem mapLoop_uri_of_not_mem {l : List (Res (Str × Str))} :
    ∀ {st st' : MState}, (∀ w, Except.ok (toL "URI", w) ∉ l) →
      mapLoop st l = Except.ok st' → st'.uri = st.uri := by
  induction l with
  | nil =>
    intro st st' _ h
    injection h with h2
    subst h2
    rfl
  | cons p rest ih =>
    intro st st' hmem h
    cases p with
    | error e => exact Except.noConfusion h
    | ok kv =>
      obtain ⟨k, v⟩ := kv
      simp only [mapLoop] at h
      rcases hs : mapStep st k v with e | st1 <;> rw [hs] at h
      · exact Except.noConfusion h
      · have hk : k ≠ toL "URI" := by
          intro he
          refine hmem v ?_
          rw [← he]
          exact List.mem_cons_self _ _
        have htail : ∀ w, Except.ok (toL "URI", w) ∉ rest :=
          fun w hw => hmem w (List.mem_cons_of_mem _ hw)
        rw [ih htail h, mapStep_uri_of_ne hk hs]

theorem drStep_id_set {st : DRState} {v u : Str} (hv : parseQuoted v = Except.ok u) :
    drStep st (toL "ID") v = Except.ok {st with id := some u} := by
  unfold drStep
  rw [show drKeyOf (toL "ID") = DRKey.kId from by decide]
  simp only [drStepK]
  rw [hv]

theorem drLoop_app (l1 l2 : List (Res (Str × Str))) :
    ∀ st, drLoop st (l1 ++ l2) = (drLoop st l1).bind fun st1 => drLoop st1 l2 := by
  induction l1 with
  | nil => intro st; rfl
  | cons p rest ih =>
    intro st
    cases p with
    | error e => rfl
    | ok kv =>
      obtain ⟨k, v⟩ := kv
      simp only [List.cons_append, drLoop]
      rcases hs : drStep st k v with e | st1
      · rfl
      · exact ih st1

theorem mapStep_range_of_ne {st st' : MState} {k v : Str}
    (hk : k ≠ toL "BYTERANGE") (h : mapStep st k v = Except.ok st') :
    st'.range = st.range := by
  rw [mapStep] at h
  rcases eq_or_ne k (toL "URI") with hu | hu
  · rw [if_pos hu] at h
    rcases hr : parseQuoted v with e | q <;> rw [hr] at h
    · exact Except.noConfusion h
    · injection h with h2; subst h2; rfl
  · rw [if_neg hu, if_neg hk] at h
    injection h with h2; subst h2; rfl

theorem mapLoop_nil (st : MState) : mapLoop st [] = Except.ok st := rfl

theorem mapLoop_err (st : MState) (e : ErrK) (rest : List (Res (Str × Str))) :
    mapLoop st (Except.error e :: rest) = Except.error e := rfl

theorem mapLoop_cons (st : MState) (k v : Str) (rest : List (Res (Str × Str))) :
    mapLoop st (Except.ok (k, v) :: rest) =
      (mapStep st k v).bind fun st1 => mapLoop st1 rest := by
  rcases h : mapStep st k v with e | st1 <;> simp [mapLoop, h, Except.bind]

theorem drLoop_nil (st : DRState) : drLoop st [] = Except.ok st := rfl

theorem drLoop_err (st : DRState) (e : ErrK) (rest : List (Res (Str × Str))) :
    drLoop st (Except.error e :: rest) = Except.error e := rfl

theorem drLoop_cons (st : DRState) (k v : Str) (rest : List (Res (Str × Str))) :
    drLoop st (Except.ok (k, v) :: rest) =
      (drStep st k v).bind fun st1 => drLoop st1 rest := by
  rcases h : drStep st k v with e | st1 <;> simp [drLoop, h, Except.bind]

theorem mapStep_char_uri (st : MState) (v : Str) :
    mapStep st (toL "URI") v =
      (parseQuoted v).map fun q => {st with uri := some q} := by
  rw [mapStep, if_pos rfl]
  rcases parseQuoted v with e | q <;> rfl

theorem mapStep_char_range (st : MState) (v : Str) :
    mapStep st (toL "BYTERANGE") v =
      (parseByteRange v).map fun r => {st with range := some r} := by
  rw [mapStep, if_neg (by decide), if_pos rfl]
  rcases parseByteRange v with e | r <;> rfl

theorem drStep_char_id (st : DRState) (v : Str) :
    drStep st (toL "ID") v =
      (parseQuoted v).map fun q => {st with id := some q} := by
  unfold drStep
  rw [show drKeyOf (toL "ID") = DRKey.kId from by decide]
  simp only [drStepK]
  rcases parseQuoted v with e | q <;> rfl

theorem drStep_char_cls (st : DRState) (v : Str) :
    drStep st (toL "CLASS") v =
      (parseQuoted v).map fun q => {st with cls := some q} := by
  unfold drStep
  rw [show drKeyOf (toL "CLASS") = DRKey.kClass from by decide]
  simp only [drStepK]
  rcases parseQuoted v with e | q <;> rfl

theorem drStep_char_sd (st : DRState) (v : Str) :
    drStep st (toL "START-DATE") v =
      (parseQuotedDate v).map fun nd => {st with start_date := some nd} := by
  unfold drStep
  rw [show drKeyOf (toL "START-DATE") = DRKey.kStartDate from by decide]
  simp only [drStepK]
  rcases parseQuotedDate v with e | nd <;> rfl

theorem drStep_char_ed (st : DRState) (v : Str) :
    drStep st (toL "END-DATE") v =
      (parseQuotedDate v).map fun nd => {st with end_date := some nd} := by
  unfold drStep
  rw [show drKeyOf (toL "END-DATE") = DRKey.kEndDate from by decide]
  simp only [drStepK]
  rcases parseQuotedDate v with e | nd <;> rfl

theorem drStep_char_dur (st : DRState) (v : Str) :
    drStep st (toL "DURATION") v =
      ((parseDecimal v).map toDuration).map fun d => {st with duration := some d} := by
  unfold drStep
  rw [show drKeyOf (toL "DURATION") = DRKey.kDuration from by decide]
  simp only [drStepK]
  rcases parseDecimal v with e | n <;> rfl

theorem drStep_char_plan (st : DRState) (v : Str) :
    drStep st (toL "PLANNED-DURATION") v =
      ((parseDecimal v).map toDuration).map
        fun d => {st with planned_duration := some d} := by
  unfold drStep
  rw [show drKeyOf (toL "PLANNED-DURATION") = DRKey.kPlanned from by decide]
  simp only [drStepK]
  rcases parseDecimal v with e | n <;> rfl

theorem drStep_char_cmd (st : DRState) (v : Str) :
    drStep st (toL "SCTE35-CMD") v =
      (parseQuoted v).map fun q => {st with scte35_cmd := some q} := by
  unfold drStep
  rw [show drKeyOf (toL "SCTE35-CMD") = DRKey.kCmd from by decide]
  simp only [drStepK]
  rcases parseQuoted v with e | q <;> rfl

theorem drStep_char_out (st : DRState) (v : Str) :
    drStep st (toL "SCTE35-OUT") v =
      (parseQuoted v).map fun q => {st with scte35_out := some q} := by
  unfold drStep
  rw [show drKeyOf (toL "SCTE35-OUT") = DRKey.kOut from by decide]
  simp only [drStepK]
  rcases parseQuoted v with e | q <;> rfl

theorem drStep_char_in (st : DRState) (v : Str) :
    drStep st (toL "SCTE35-IN") v =
      (parseQuoted v).map fun q => {st with scte35_in := some q} := by
  unfold drStep
  rw [show drKeyOf (toL "SCTE35-IN") = DRKey.kIn from by decide]
  simp only [drStepK]
  rcases parseQuoted v with e | q <;> rfl

theorem drStep_char_eon (st : DRState) (v : Str) :
    drStep st (toL "END-ON-NEXT") v =
      (parseYes v).map fun y => {st with end_on_next := some y} := by
  unfold drStep
  rw [show drKeyOf (toL "END-ON-NEXT") = DRKey.kEon from by decide]
  simp only [drStepK]
  rcases parseYes v with e | y <;> rfl

theorem loopInsertDup {σ α : Type}
    (step : σ → Str → Str → Res σ)
    (loop : σ → List (Res (Str × Str)) → Res σ)
    (herr : ∀ st e rest, loop st (Except.error e :: rest) = Except.error e)
    (hcons : ∀ st k v rest, loop st (Except.ok (k, v) :: rest) =
      (step st k v).bind fun st1 => loop st1 rest)
    (dec : Str → Res α) (upd : σ → α → σ) (k0 : Str)
    (hchar : ∀ st v, step st k0 v = (dec v).map (upd st))
    (hover : ∀ st a b, upd (upd st a) b = upd st b)
    (l1 l2 : List (Res (Str × Str))) (vd v : Str) (xd : α)
    (hvd : dec vd = Except.ok xd) :
    ∀ st, loop st (l1 ++ Except.ok (k0, vd) :: Except.ok (k0, v) :: l2) =
      loop st (l1 ++ Except.ok (k0, v) :: l2) := by
  induction l1 with
  | nil =>
    intro st
    rw [List.nil_append, List.nil_append, hcons, hchar, hvd]
    simp only [Except.map, Except.bind]
    rw [hcons, hcons, hchar, hchar]
    rcases hv : dec v with e | x
    · simp only [Except.map, Except.bind]
    · simp only [Except.map, Except.bind]
      rw [hover]
  | cons p rest ih =>
    intro st
    cases p with
    | error e => rw [List.cons_append, List.cons_append, herr, herr]
    | ok kv =>
      obtain ⟨k, w⟩ := kv
      rw [List.cons_append, List.cons_append, hcons, hcons]
      rcases hs : step st k w with e | st1
      · simp only [Except.bind]
      · simp only [Except.bind]
        exact ih st1

theorem loopProjNotMem {σ β : Type}
    (step : σ → Str → Str → Res σ)
    (loop : σ → List (Res (Str × Str)) → Res σ)
    (hnil : ∀ st, loop st [] = Except.ok st)
    (herr : ∀ st e rest, loop st (Except.error e :: rest) = Except.error e)
    (hcons : ∀ st k v rest, loop st (Except.ok (k, v) :: rest) =
      (step st k v).bind fun st1 => loop st1 rest)
    (proj : σ → β) (k0 : Str)
    (hpres : ∀ st st' k v, k ≠ k0 → step st k v = Except.ok st' → proj st' = proj st) :
    ∀ l st st', (∀ w, Except.ok (k0, w) ∉ l) → loop st l = Except.ok st' →
      proj st' = proj st := by
  intro l
  induction l with
  | nil =>
    intro st st' _ h
    rw [hnil] at h
    injection h with h2
    subst h2
    rfl
  | cons p rest ih =>
    intro st st' hmem h
    cases p with
    | error e =>
      rw [herr] at h
      exact Except.noConfusion h
    | ok kv =>
      obtain ⟨k, w⟩ := kv
      rw [hcons] at h
      rcases hs : step st k w with e | st1 <;> rw [hs] at h <;>
        simp only [Except.bind] at h
      · exact Except.noConfusion h
      · have hk : k ≠ k0 := by
          intro he
          refine hmem w ?_
          rw [← he]
          exact List.mem_cons_self _ _
        have htail : ∀ w2, Except.ok (k0, w2) ∉ rest :=
          fun w2 hw => hmem w2 (List.mem_cons_of_mem _ hw)
        rw [ih st1 st' htail h, hpres st st1 k w hk hs]

theorem loopLastWins {σ α β : Type}
    (step : σ → Str → Str → Res σ)
    (loop : σ → List (Res (Str × Str)) → Res σ)
    (hnil : ∀ st, loop st [] = Except.ok st)
    (herr : ∀ st e rest, loop st (Except.error e :: rest) = Except.error e)
    (hcons : ∀ st k v rest, loop st (Except.ok (k, v) :: rest) =
      (step st k v).bind fun st1 => loop st1 rest)
    (dec : Str → Res α) (upd : σ → α → σ) (k0 : Str)
    (hchar : ∀ st v, step st k0 v = (dec v).map (upd st))
    (proj : σ → β) (f : α → β)
    (hpres : ∀ st st' k v, k ≠ k0 → step st k v = Except.ok st' → proj st' = proj st)
    (hproj_upd : ∀ st a, proj (upd st a) = f a)
    (l1 l2 : List (Res (Str × Str))) (v : Str) (x : α)
    (hv : dec v = Except.ok x) (hmem : ∀ w, Except.ok (k0, w) ∉ l2) :
    ∀ st stF, loop st (l1 ++ Except.ok (k0, v) :: l2) = Except.ok stF →
      proj stF = f x := by
  induction l1 with
  | nil =>
    intro st stF h
    rw [List.nil_append, hcons, hchar, hv] at h
    simp only [Except.map, Except.bind] at h
    rw [loopProjNotMem step loop hnil herr hcons proj k0 hpres l2 (upd st x) stF
      hmem h]
    exact hproj_upd st x
  | cons p rest ih =>
    intro st stF h
    cases p with
    | error e =>
      rw [List.cons_append, herr] at h
      exact Except.noConfusion h
    | ok kv =>
      obtain ⟨k, w⟩ := kv
      rw [List.cons_append, hcons] at h
      rcases hs : step st k w with e | st1 <;> rw [hs] at h <;>
        simp only [Except.bind] at h
      · exact Except.noConfusion h
      · exact ih st1 stF h

theorem mapFinalize_fields {st : MState} {m : ExtXMap}
    (h : mapFinalize st = Except.ok m) :
    st.uri = some m.uri ∧ m.range = st.range := by
  simp only [mapFinalize] at h
  split at h
  · exact Except.noConfusion h
  · rename_i u hu
    injection h with h2
    subst h2
    exact ⟨hu, rfl⟩

theorem drFinalize_fields {st : DRState} {r : ExtXDateRange}
    (h : drFinalize st = Except.ok r) :
    st.id = some r.id ∧ r.cls = st.cls ∧ st.start_date = some r.start_date ∧
    r.end_date = st.end_date ∧ r.duration = st.duration ∧
    r.planned_duration = st.planned_duration ∧ r.scte35_cmd = st.scte35_cmd ∧
    r.scte35_out = st.scte35_out ∧ r.scte35_in = st.scte35_in ∧
    r.end_on_next = st.end_on_next := by
  simp only [drFinalize] at h
  split at h
  · exact Except.noConfusion h
  rename_i i hi
  split at h
  · exact Except.noConfusion h
  rename_i sd hsd
  by_cases hc : st.end_on_next.isSome = true ∧ st.cls = none
  · rw [if_pos hc] at h
    exact Except.noConfusion h
  · rw [if_neg hc] at h
    injection h with h2
    subst h2
    exact ⟨hi, rfl, hsd, rfl, rfl, rfl, rfl, rfl, rfl, rfl⟩

theorem dup_map_uri : ∀ (l1 l2 : List (Res (Str × Str))) (vd v : Str) (ud u : Str),
    parseQuoted vd = Except.ok ud → parseQuoted v = Except.ok u →
    (ExtXMap.fromAttrs
        (l1 ++ Except.ok (toL "URI", vd) :: Except.ok (toL "URI", v) :: l2) =
      ExtXMap.fromAttrs (l1 ++ Except.ok (toL "URI", v) :: l2)) ∧
    ((∀ w, Except.ok (toL "URI", w) ∉ l2) →
      ∀ m, ExtXMap.fromAttrs (l1 ++ Except.ok (toL "URI", v) :: l2) =
          Except.ok m → m.uri = u) := by
  intro l1 l2 vd v ud u hvd hv
  constructor
  · rw [ExtXMap.fromAttrs, ExtXMap.fromAttrs,
      loopInsertDup mapStep mapLoop mapLoop_err mapLoop_cons parseQuoted
        (fun st q => {st with uri := some q}) (toL "URI") mapStep_char_uri
        (fun st a b => rfl) l1 l2 vd v ud hvd (⟨none, none⟩ : MState)]
  · intro hmem m h
    rw [ExtXMap.fromAttrs] at h
    rcases hl : mapLoop (⟨none, none⟩ : MState) (l1 ++ Except.ok (toL "URI", v) :: l2) with e | stF <;> rw [hl] at h
    · exact Except.noConfusion h
    · simp only [Except.bind] at h
      have hproj : (fun st => st.uri) stF = some u :=
        loopLastWins mapStep mapLoop mapLoop_nil mapLoop_err mapLoop_cons parseQuoted
          (fun st q => {st with uri := some q}) (toL "URI") mapStep_char_uri
          (fun st => st.uri) some
          (fun st st2 k2 w2 hk2 hs2 => mapStep_uri_of_ne hk2 hs2)
          (fun st a => rfl) l1 l2 v u hv hmem (⟨none, none⟩ : MState) stF hl
      exact Option.some.inj (((mapFinalize_fields h).1).symm.trans hproj)

theorem dup_map_range : ∀ (l1 l2 : List (Res (Str × Str))) (vd v : Str) (ud u : ByteRange),
    parseByteRange vd = Except.ok ud → parseByteRange v = Except.ok u →
    (ExtXMap.fromAttrs
        (l1 ++ Except.ok (toL "BYTERANGE", vd) :: Except.ok (toL "BYTERANGE", v) :: l2) =
      ExtXMap.fromAttrs (l1 ++ Except.ok (toL "BYTERANGE", v) :: l2)) ∧
    ((∀ w, Except.ok (toL "BYTERANGE", w) ∉ l2) →
      ∀ m, ExtXMap.fromAttrs (l1 ++ Except.ok (toL "BYTERANGE", v) :: l2) =
          Except.ok m → m.range = some u) := by
  intro l1 l2 vd v ud u hvd hv
  constructor
  · rw [ExtXMap.fromAttrs, ExtXMap.fromAttrs,
      loopInsertDup mapStep mapLoop mapLoop_err mapLoop_cons parseByteRange
        (fun st r => {st with range := some r}) (toL "BYTERANGE") mapStep_char_range
        (fun st a b => rfl) l1 l2 vd v ud hvd (⟨none, none⟩ : MState)]
  · intro hmem m h
    rw [ExtXMap.fromAttrs] at h
    rcases hl : mapLoop (⟨none, none⟩ : MState) (l1 ++ Except.ok (toL "BYTERANGE", v) :: l2) with e | stF <;> rw [hl] at h
    · exact Except.noConfusion h
    · simp only [Except.bind] at h
      have hproj : (fun st => st.range) stF = some u :=
        loopLastWins mapStep mapLoop mapLoop_nil mapLoop_err mapLoop_cons parseByteRange
          (fun st r => {st with range := some r}) (toL "BYTERANGE") mapStep_char_range
          (fun st => st.range) some
          (fun st st2 k2 w2 hk2 hs2 => mapStep_range_of_ne hk2 hs2)
          (fun st a => rfl) l1 l2 v u hv hmem (⟨none, none⟩ : MState) stF hl
      rw [(mapFinalize_fields h).2]
      exact hproj

theorem dup_dr_id : ∀ (l1 l2 : List (Res (Str × Str))) (vd v : Str) (ud u : Str),
    parseQuoted vd = Except.ok ud → parseQuoted v = Except.ok u →
    (ExtXDateRange.fromAttrs
        (l1 ++ Except.ok (toL "ID", vd) :: Except.ok (toL "ID", v) :: l2) =
      ExtXDateRange.fromAttrs (l1 ++ Except.ok (toL "ID", v) :: l2)) ∧
    ((∀ w, Except.ok (toL "ID", w) ∉ l2) →
      ∀ r, ExtXDateRange.fromAttrs (l1 ++ Except.ok (toL "ID", v) :: l2) =
          Except.ok r → r.id = u) := by
  intro l1 l2 vd v ud u hvd hv
  constructor
  · rw [ExtXDateRange.fromAttrs, ExtXDateRange.fromAttrs,
      loopInsertDup drStep drLoop drLoop_err drLoop_cons parseQuoted
        (fun st q => {st with id := some q}) (toL "ID") drStep_char_id
        (fun st a b => rfl) l1 l2 vd v ud hvd drInit]
  · intro hmem r h
    rw [ExtXDateRange.fromAttrs] at h
    rcases hl : drLoop drInit (l1 ++ Except.ok (toL "ID", v) :: l2) with e | stF <;> rw [hl] at h
    · exact Except.noConfusion h
    · simp only [Except.bind] at h
      have hproj : (fun st => st.id) stF = some u :=
        loopLastWins drStep drLoop drLoop_nil drLoop_err drLoop_cons parseQuoted
          (fun st q => {st with id := some q}) (toL "ID") drStep_char_id
          (fun st => st.id) some
          (fun st st2 k2 w2 hk2 hs2 => drStep_id_of_ne hk2 hs2)
          (fun st a => rfl) l1 l2 v u hv hmem drInit stF hl
      exact Option.some.inj (((drFinalize_fields h).1).symm.trans hproj)

theorem dup_dr_cls : ∀ (l1 l2 : List (Res (Str × Str))) (vd v : Str) (ud u : Str),
    parseQuoted vd = Except.ok ud → parseQuoted v = Except.ok u →
    (ExtXDateRange.fromAttrs
        (l1 ++ Except.ok (toL "CLASS", vd) :: Except.ok (toL "CLASS", v) :: l2) =
      ExtXDateRange.fromAttrs (l1 ++ Except.ok (toL "CLASS", v) :: l2)) ∧
    ((∀ w, Except.ok (toL "CLASS", w) ∉ l2) →
      ∀ r, ExtXDateRange.fromAttrs (l1 ++ Except.ok (toL "CLASS", v) :: l2) =
          Except.ok r → r.cls = some u) := by
  intro l1 l2 vd v ud u hvd hv
  constructor
  · rw [ExtXDateRange.fromAttrs, ExtXDateRange.fromAttrs,
      loopInsertDup drStep drLoop drLoop_err drLoop_cons parseQuoted
        (fun st q => {st with cls := some q}) (toL "CLASS") drStep_char_cls
        (fun st a b => rfl) l1 l2 vd v ud hvd drInit]
  · intro hmem r h
    rw [ExtXDateRange.fromAttrs] at h
    rcases hl : drLoop drInit (l1 ++ Except.ok (toL "CLASS", v) :: l2) with e | stF <;> rw [hl] at h
    · exact Except.noConfusion h
    · simp only [Except.bind] at h
      have hproj : (fun st => st.cls) stF = some u :=
        loopLastWins drStep drLoop drLoop_nil drLoop_err drLoop_cons parseQuoted
          (fun st q => {st with cls := some q}) (toL "CLASS") drStep_char_cls
          (fun st => st.cls) some
          (fun st st2 k2 w2 hk2 hs2 => drStep_cls_of_ne hk2 hs2)
          (fun st a => rfl) l1 l2 v u hv hmem drInit stF hl
      rw [(drFinalize_fields h).2.1]
      exact hproj

theorem dup_dr_sd : ∀ (l1 l2 : List (Res (Str × Str))) (vd v : Str) (ud u : NDate),
    parseQuotedDate vd = Except.ok ud → parseQuotedDate v = Except.ok u →
    (ExtXDateRange.fromAttrs
        (l1 ++ Except.ok (toL "START-DATE", vd) :: Except.ok (toL "START-DATE", v) :: l2) =
      ExtXDateRange.fromAttrs (l1 ++ Except.ok (toL "START-DATE", v) :: l2)) ∧
    ((∀ w, Except.ok (toL "START-DATE", w) ∉ l2) →
      ∀ r, ExtXDateRange.fromAttrs (l1 ++ Except.ok (toL "START-DATE", v) :: l2) =
          Except.ok r → r.start_date = u) := by
  intro l1 l2 vd v ud u hvd hv
  constructor
  · rw [ExtXDateRange.fromAttrs, ExtXDateRange.fromAttrs,
      loopInsertDup drStep drLoop drLoop_err drLoop_cons parseQuotedDate
        (fun st q => {st with start_date := some q}) (toL "START-DATE") drStep_char_sd
        (fun st a b => rfl) l1 l2 vd v ud hvd drInit]
  · intro hmem r h
    rw [ExtXDateRange.fromAttrs] at h
    rcases hl : drLoop drInit (l1 ++ Except.ok (toL "START-DATE", v) :: l2) with e | stF <;> rw [hl] at h
    · exact Except.noConfusion h
    · simp only [Except.bind] at h
      have hproj : (fun st => st.start_date) stF = some u :=
        loopLastWins drStep drLoop drLoop_nil drLoop_err drLoop_cons parseQuotedDate
          (fun st q => {st with start_date := some q}) (toL "START-DATE") drStep_char_sd
          (fun st => st.start_date) some
          (fun st st2 k2 w2 hk2 hs2 => drStep_sd_of_ne hk2 hs2)
          (fun st a => rfl) l1 l2 v u hv hmem drInit stF hl
      exact Option.some.inj (((drFinalize_fields h).2.2.1).symm.trans hproj)

theorem dup_dr_ed : ∀ (l1 l2 : List (Res (Str × Str))) (vd v : Str) (ud u : NDate),
    parseQuotedDate vd = Except.ok ud → parseQuotedDate v = Except.ok u →
    (ExtXDateRange.fromAttrs
        (l1 ++ Except.ok (toL "END-DATE", vd) :: Except.ok (toL "END-DATE", v) :: l2) =
      ExtXDateRange.fromAttrs (l1 ++ Except.ok (toL "END-DATE", v) :: l2)) ∧
    ((∀ w, Except.ok (toL "END-DATE", w) ∉ l2) →
      ∀ r, ExtXDateRange.fromAttrs (l1 ++ Except.ok (toL "END-DATE", v) :: l2) =
          Except.ok r → r.end_date = some u) := by
  intro l1 l2 vd v ud u hvd hv
  constructor
  · rw [ExtXDateRange.fromAttrs, ExtXDateRange.fromAttrs,
      loopInsertDup drStep drLoop drLoop_err drLoop_cons parseQuotedDate
        (fun st q => {st with end_date := some q}) (toL "END-DATE") drStep_char_ed
        (fun st a b => rfl) l1 l2 vd v ud hvd drInit]
  · intro hmem r h
    rw [ExtXDateRange.fromAttrs] at h
    rcases hl : drLoop drInit (l1 ++ Except.ok (toL "END-DATE", v) :: l2) with e | stF <;> rw [hl] at h
    · exact Except.noConfusion h
    · simp only [Except.bind] at h
      have hproj : (fun st => st.end_date) stF = some u :=
        loopLastWins drStep drLoop drLoop_nil drLoop_err drLoop_cons parseQuotedDate
          (fun st q => {st with end_date := some q}) (toL "END-DATE") drStep_char_ed
          (fun st => st.end_date) some
          (fun st st2 k2 w2 hk2 hs2 => drStep_ed_of_ne hk2 hs2)
          (fun st a => rfl) l1 l2 v u hv hmem drInit stF hl
      rw [(drFinalize_fields h).2.2.2.1]
      exact hproj

theorem dup_dr_dur : ∀ (l1 l2 : List (Res (Str × Str))) (vd v : Str) (nd n : Nat),
    parseDecimal vd = Except.ok nd → parseDecimal v = Except.ok n →
    (ExtXDateRange.fromAttrs
        (l1 ++ Except.ok (toL "DURATION", vd) :: Except.ok (toL "DURATION", v) :: l2) =
      ExtXDateRange.fromAttrs (l1 ++ Except.ok (toL "DURATION", v) :: l2)) ∧
    ((∀ w, Except.ok (toL "DURATION", w) ∉ l2) →
      ∀ r, ExtXDateRange.fromAttrs (l1 ++ Except.ok (toL "DURATION", v) :: l2) =
          Except.ok r → r.duration = some (toDuration n)) := by
  intro l1 l2 vd v nd n hvd hv
  constructor
  · rw [ExtXDateRange.fromAttrs, ExtXDateRange.fromAttrs,
      loopInsertDup drStep drLoop drLoop_err drLoop_cons (fun w => (parseDecimal w).map toDuration)
        (fun st d => {st with duration := some d}) (toL "DURATION") drStep_char_dur
        (fun st a b => rfl) l1 l2 vd v (toDuration nd)
        (show Except.map toDuration (parseDecimal vd) = Except.ok (toDuration nd) by
          rw [hvd]; rfl) drInit]
  · intro hmem r h
    rw [ExtXDateRange.fromAttrs] at h
    rcases hl : drLoop drInit (l1 ++ Except.ok (toL "DURATION", v) :: l2) with e | stF <;> rw [hl] at h
    · exact Except.noConfusion h
    · simp only [Except.bind] at h
      have hproj : (fun st => st.duration) stF = some (toDuration n) :=
        loopLastWins drStep drLoop drLoop_nil drLoop_err drLoop_cons (fun w => (parseDecimal w).map toDuration)
          (fun st d => {st with duration := some d}) (toL "DURATION") drStep_char_dur
          (fun st => st.duration) some
          (fun st st2 k2 w2 hk2 hs2 => drStep_dur_of_ne hk2 hs2)
          (fun st a => rfl) l1 l2 v (toDuration n)
          (show Except.map toDuration (parseDecimal v) = Except.ok (toDuration n) by
            rw [hv]; rfl) hmem drInit stF hl
      rw [(drFinalize_fields h).2.2.2.2.1]
      exact hproj

theorem dup_dr_plan : ∀ (l1 l2 : List (Res (Str × Str))) (vd v : Str) (nd n : Nat),
    parseDecimal vd = Except.ok nd → parseDecimal v = Except.ok n →
    (ExtXDateRange.fromAttrs
        (l1 ++ Except.ok (toL "PLANNED-DURATION", vd) :: Except.ok (toL "PLANNED-DURATION", v) :: l2) =
      ExtXDateRange.fromAttrs (l1 ++ Except.ok (toL "PLANNED-DURATION", v) :: l2)) ∧
    ((∀ w, Except.ok (toL "PLANNED-DURATION", w) ∉ l2) →
      ∀ r, ExtXDateRange.fromAttrs (l1 ++ Except.ok (toL "PLANNED-DURATION", v) :: l2) =
          Except.ok r → r.planned_duration = some (toDuration n)) := by
  intro l1 l2 vd v nd n hvd hv
  constructor
  · rw [ExtXDateRange.fromAttrs, ExtXDateRange.fromAttrs,
      loopInsertDup drStep drLoop drLoop_err drLoop_cons (fun w => (parseDecimal w).map toDuration)
        (fun st d => {st with planned_duration := some d}) (toL "PLANNED-DURATION") drStep_char_plan
        (fun st a b => rfl) l1 l2 vd v (toDuration nd)
        (show Except.map toDuration (parseDecimal vd) = Except.ok (toDuration nd) by
          rw [hvd]; rfl) drInit]
  · intro hmem r h
    rw [ExtXDateRange.fromAttrs] at h
    rcases hl : drLoop drInit (l1 ++ Except.ok (toL "PLANNED-DURATION", v) :: l2) with e | stF <;> rw [hl] at h
    · exact Except.noConfusion h
    · simp only [Except.bind] at h
      have hproj : (fun st => st.planned_duration) stF = some (toDuration n) :=
        loopLastWins drStep drLoop drLoop_nil drLoop_err drLoop_cons (fun w => (parseDecimal w).map toDuration)
          (fun st d => {st with planned_duration := some d}) (toL "PLANNED-DURATION") drStep_char_plan
          (fun st => st.planned_duration) some
          (fun st st2 k2 w2 hk2 hs2 => drStep_plan_of_ne hk2 hs2)
          (fun st a => rfl) l1 l2 v (toDuration n)
          (show Except.map toDuration (parseDecimal v) = Except.ok (toDuration n) by
            rw [hv]; rfl) hmem drInit stF hl
      rw [(drFinalize_fields h).2.2.2.2.2.1]
      exact hproj

theorem dup_dr_cmd : ∀ (l1 l2 : List (Res (Str × Str))) (vd v : Str) (ud u : Str),
    parseQuoted vd = Except.ok ud → parseQuoted v = Except.ok u →
    (ExtXDateRange.fromAttrs
        (l1 ++ Except.ok (toL "SCTE35-CMD", vd) :: Except.ok (toL "SCTE35-CMD", v) :: l2) =
      ExtXDateRange.fromAttrs (l1 ++ Except.ok (toL "SCTE35-CMD", v) :: l2)) ∧
    ((∀ w, Except.ok (toL "SCTE35-CMD", w) ∉ l2) →
      ∀ r, ExtXDateRange.fromAttrs (l1 ++ Except.ok (toL "SCTE35-CMD", v) :: l2) =
          Except.ok r → r.scte35_cmd = some u) := by
  intro l1 l2 vd v ud u hvd hv
  constructor
  · rw [ExtXDateRange.fromAttrs, ExtXDateRange.fromAttrs,
      loopInsertDup drStep drLoop drLoop_err drLoop_cons parseQuoted
        (fun st q => {st with scte35_cmd := some q}) (toL "SCTE35-CMD") drStep_char_cmd
        (fun st a b => rfl) l1 l2 vd v ud hvd drInit]
  · intro hmem r h
    rw [ExtXDateRange.fromAttrs] at h
    rcases hl : drLoop drInit (l1 ++ Except.ok (toL "SCTE35-CMD", v) :: l2) with e | stF <;> rw [hl] at h
    · exact Except.noConfusion h
    · simp only [Except.bind] at h
      have hproj : (fun st => st.scte35_cmd) stF = some u :=
        loopLastWins drStep drLoop drLoop_nil drLoop_err drLoop_cons parseQuoted
          (fun st q => {st with scte35_cmd := some q}) (toL "SCTE35-CMD") drStep_char_cmd
          (fun st => st.scte35_cmd) some
          (fun st st2 k2 w2 hk2 hs2 => drStep_cmd_of_ne hk2 hs2)
          (fun st a => rfl) l1 l2 v u hv hmem drInit stF hl
      rw [(drFinalize_fields h).2.2.2.2.2.2.1]
      exact hproj

theorem dup_dr_out : ∀ (l1 l2 : List (Res (Str × Str))) (vd v : Str) (ud u : Str),
    parseQuoted vd = Except.ok ud → parseQuoted v = Except.ok u →
    (ExtXDateRange.fromAttrs
        (l1 ++ Except.ok (toL "SCTE35-OUT", vd) :: Except.ok (toL "SCTE35-OUT", v) :: l2) =
      ExtXDateRange.fromAttrs (l1 ++ Except.ok (toL "SCTE35-OUT", v) :: l2)) ∧
    ((∀ w, Except.ok (toL "SCTE35-OUT", w) ∉ l2) →
      ∀ r, ExtXDateRange.fromAttrs (l1 ++ Except.ok (toL "SCTE35-OUT", v) :: l2) =
          Except.ok r → r.scte35_out = some u) := by
  intro l1 l2 vd v ud u hvd hv
  constructor
  · rw [ExtXDateRange.fromAttrs, ExtXDateRange.fromAttrs,
      loopInsertDup drStep drLoop drLoop_err drLoop_cons parseQuoted
        (fun st q => {st with scte35_out := some q}) (toL "SCTE35-OUT") drStep_char_out
        (fun st a b => rfl) l1 l2 vd v ud hvd drInit]
  · intro hmem r h
    rw [ExtXDateRange.fromAttrs] at h
    rcases hl : drLoop drInit (l1 ++ Except.ok (toL "SCTE35-OUT", v) :: l2) with e | stF <;> rw [hl] at h
    · exact Except.noConfusion h
    · simp only [Except.bind] at h
      have hproj : (fun st => st.scte35_out) stF = some u :=
        loopLastWins drStep drLoop drLoop_nil drLoop_err drLoop_cons parseQuoted
          (fun st q => {st with scte35_out := some q}) (toL "SCTE35-OUT") drStep_char_out
          (fun st => st.scte35_out) some
          (fun st st2 k2 w2 hk2 hs2 => drStep_out_of_ne hk2 hs2)
          (fun st a => rfl) l1 l2 v u hv hmem drInit stF hl
      rw [(drFinalize_fields h).2.2.2.2.2.2.2.1]
      exact hproj

theorem dup_dr_in2 : ∀ (l1 l2 : List (Res (Str × Str))) (vd v : Str) (ud u : Str),
    parseQuoted vd = Except.ok ud → parseQuoted v = Except.ok u →
    (ExtXDateRange.fromAttrs
        (l1 ++ Except.ok (toL "SCTE35-IN", vd) :: Except.ok (toL "SCTE35-IN", v) :: l2) =
      ExtXDateRange.fromAttrs (l1 ++ Except.ok (toL "SCTE35-IN", v) :: l2)) ∧
    ((∀ w, Except.ok (toL "SCTE35-IN", w) ∉ l2) →
      ∀ r, ExtXDateRange.fromAttrs (l1 ++ Except.ok (toL "SCTE35-IN", v) :: l2) =
          Except.ok r → r.scte35_in = some u) := by
  intro l1 l2 vd v ud u hvd hv
  constructor
  · rw [ExtXDateRange.fromAttrs, ExtXDateRange.fromAttrs,
      loopInsertDup drStep drLoop drLoop_err drLoop_cons parseQuoted
        (fun st q => {st with scte35_in := some q}) (toL "SCTE35-IN") drStep_char_in
        (fun st a b => rfl) l1 l2 vd v ud hvd drInit]
  · intro hmem r h
    rw [ExtXDateRange.fromAttrs] at h
    rcases hl : drLoop drInit (l1 ++ Except.ok (toL "SCTE35-IN", v) :: l2) with e | stF <;> rw [hl] at h
    · exact Except.noConfusion h
    · simp only [Except.bind] at h
      have hproj : (fun st => st.scte35_in) stF = some u :=
        loopLastWins drStep drLoop drLoop_nil drLoop_err drLoop_cons parseQuoted
          (fun st q => {st with scte35_in := some q}) (toL "SCTE35-IN") drStep_char_in
          (fun st => st.scte35_in) some
          (fun st st2 k2 w2 hk2 hs2 => drStep_in_of_ne hk2 hs2)
          (fun st a => rfl) l1 l2 v u hv hmem drInit stF hl
      rw [(drFinalize_fields h).2.2.2.2.2.2.2.2.1]
      exact hproj

theorem dup_dr_eon : ∀ (l1 l2 : List (Res (Str × Str))) (vd v : Str) (ud u : Yes),
    parseYes vd = Except.ok ud → parseYes v = Except.ok u →
    (ExtXDateRange.fromAttrs
        (l1 ++ Except.ok (toL "END-ON-NEXT", vd) :: Except.ok (toL "END-ON-NEXT", v) :: l2) =
      ExtXDateRange.fromAttrs (l1 ++ Except.ok (toL "END-ON-NEXT", v) :: l2)) ∧
    ((∀ w, Except.ok (toL "END-ON-NEXT", w) ∉ l2) →
      ∀ r, ExtXDateRange.fromAttrs (l1 ++ Except.ok (toL "END-ON-NEXT", v) :: l2) =
          Except.ok r → r.end_on_next = some u) := by
  intro l1 l2 vd v ud u hvd hv
  constructor
  · rw [ExtXDateRange.fromAttrs, ExtXDateRange.fromAttrs,
      loopInsertDup drStep drLoop drLoop_err drLoop_cons parseYes
        (fun st q => {st with end_on_next := some q}) (toL "END-ON-NEXT") drStep_char_eon
        (fun st a b => rfl) l1 l2 vd v ud hvd drInit]
  · intro hmem r h
    rw [ExtXDateRange.fromAttrs] at h
    rcases hl : drLoop drInit (l1 ++ Except.ok (toL "END-ON-NEXT", v) :: l2) with e | stF <;> rw [hl] at h
    · exact Except.noConfusion h
    · simp only [Except.bind] at h
      have hproj : (fun st => st.end_on_next) stF = some u :=
        loopLastWins drStep drLoop drLoop_nil drLoop_err drLoop_cons parseYes
          (fun st q => {st with end_on_next := some q}) (toL "END-ON-NEXT") drStep_char_eon
          (fun st => st.end_on_next) some
          (fun st st2 k2 w2 hk2 hs2 => drStep_eon_of_ne hk2 hs2)
          (fun st a => rfl) l1 l2 v u hv hmem drInit stF hl
      rw [(drFinalize_fields h).2.2.2.2.2.2.2.2.2]
      exact hproj

/-- C10: when the same recognized attribute key occurs more than once in the
attribute list of an EXT-X-MAP or EXT-X-DATERANGE line and each occurrence's
value decodes successfully, duplicates are not an error — inserting an extra
decoding occurrence of the key before an existing one leaves the parse
result (success or failure, and every field) unchanged — and on success the
last occurrence's value is the one stored.  This is stated for every
recognized attribute key of both tags: URI and BYTERANGE of the map tag,
and ID, CLASS, START-DATE, END-DATE, DURATION, PLANNED-DURATION,
SCTE35-CMD, SCTE35-OUT, SCTE35-IN and END-ON-NEXT of the date-range tag. -/
theorem claim_C10_duplicate_last_wins :
    (∀ (l1 l2 : List (Res (Str × Str))) (vd v : Str) (ud u : Str),
      parseQuoted vd = Except.ok ud → parseQuoted v = Except.ok u →
      (ExtXMap.fromAttrs
          (l1 ++ Except.ok (toL "URI", vd) :: Except.ok (toL "URI", v) :: l2) =
        ExtXMap.fromAttrs (l1 ++ Except.ok (toL "URI", v) :: l2)) ∧
      ((∀ w, Except.ok (toL "URI", w) ∉ l2) →
        ∀ m, ExtXMap.fromAttrs (l1 ++ Except.ok (toL "URI", v) :: l2) =
            Except.ok m → m.uri = u)) ∧
    (∀ (l1 l2 : List (Res (Str × Str))) (vd v : Str) (ud u : ByteRange),
      parseByteRange vd = Except.ok ud → parseByteRange v = Except.ok u →
      (ExtXMap.fromAttrs
          (l1 ++ Except.ok (toL "BYTERANGE", vd) :: Except.ok (toL "BYTERANGE", v) :: l2) =
        ExtXMap.fromAttrs (l1 ++ Except.ok (toL "BYTERANGE", v) :: l2)) ∧
      ((∀ w, Except.ok (toL "BYTERANGE", w) ∉ l2) →
        ∀ m, ExtXMap.fromAttrs (l1 ++ Except.ok (toL "BYTERANGE", v) :: l2) =
            Except.ok m → m.range = some u)) ∧
    (∀ (l1 l2 : List (Res (Str × Str))) (vd v : Str) (ud u : Str),
      parseQuoted vd = Except.ok ud → parseQuoted v = Except.ok u →
      (ExtXDateRange.fromAttrs
          (l1 ++ Except.ok (toL "ID", vd) :: Except.ok (toL "ID", v) :: l2) =
        ExtXDateRange.fromAttrs (l1 ++ Except.ok (toL "ID", v) :: l2)) ∧
      ((∀ w, Except.ok (toL "ID", w) ∉ l2) →
        ∀ r, ExtXDateRange.fromAttrs (l1 ++ Except.ok (toL "ID", v) :: l2) =
            Except.ok r → r.id = u)) ∧
    (∀ (l1 l2 : List (Res (Str × Str))) (vd v : Str) (ud u : Str),
      parseQuoted vd = Except.ok ud → parseQuoted v = Except.ok u →
      (ExtXDateRange.fromAttrs
          (l1 ++ Except.ok (toL "CLASS", vd) :: Except.ok (toL "CLASS", v) :: l2) =
        ExtXDateRange.fromAttrs (l1 ++ Except.ok (toL "CLASS", v) :: l2)) ∧
      ((∀ w, Except.ok (toL "CLASS", w) ∉ l2) →
        ∀ r, ExtXDateRange.fromAttrs (l1 ++ Except.ok (toL "CLASS", v) :: l2) =
            Except.ok r → r.cls = some u)) ∧
    (∀ (l1 l2 : List (Res (Str × Str))) (vd v : Str) (ud u : NDate),
      parseQuotedDate vd = Except.ok ud → parseQuotedDate v = Except.ok u →
      (ExtXDateRange.fromAttrs
          (l1 ++ Except.ok (toL "START-DATE", vd) :: Except.ok (toL "START-DATE", v) :: l2) =
        ExtXDateRange.fromAttrs (l1 ++ Except.ok (toL "START-DATE", v) :: l2)) ∧
      ((∀ w, Except.ok (toL "START-DATE", w) ∉ l2) →
        ∀ r, ExtXDateRange.fromAttrs (l1 ++ Except.ok (toL "START-DATE", v) :: l2) =
            Except.ok r → r.start_date = u)) ∧
    (∀ (l1 l2 : List (Res (Str × Str))) (vd v : Str) (ud u : NDate),
      parseQuotedDate vd = Except.ok ud → parseQuotedDate v = Except.ok u →
      (ExtXDateRange.fromAttrs
          (l1 ++ Except.ok (toL "END-DATE", vd) :: Except.ok (toL "END-DATE", v) :: l2) =
        ExtXDateRange.fromAttrs (l1 ++ Except.ok (toL "END-DATE", v) :: l2)) ∧
      ((∀ w, Except.ok (toL "END-DATE", w) ∉ l2) →
        ∀ r, ExtXDateRange.fromAttrs (l1 ++ Except.ok (toL "END-DATE", v) :: l2) =
            Except.ok r → r.end_date = some u)) ∧
    (∀ (l1 l2 : List (Res (Str × Str))) (vd v : Str) (nd n : Nat),
      parseDecimal vd = Except.ok nd → parseDecimal v = Except.ok n →
      (ExtXDateRange.fromAttrs
          (l1 ++ Except.ok (toL "DURATION", vd) :: Except.ok (toL "DURATION", v) :: l2) =
        ExtXDateRange.fromAttrs (l1 ++ Except.ok (toL "DURATION", v) :: l2)) ∧
      ((∀ w, Except.ok (toL "DURATION", w) ∉ l2) →
        ∀ r, ExtXDateRange.fromAttrs (l1 ++ Except.ok (toL "DURATION", v) :: l2) =
            Except.ok r → r.duration = some (toDuration n))) ∧
    (∀ (l1 l2 : List (Res (Str × Str))) (vd v : Str) (nd n : Nat),
      parseDecimal vd = Except.ok nd → parseDecimal v = Except.ok n →
      (ExtXDateRange.fromAttrs
          (l1 ++ Except.ok (toL "PLANNED-DURATION", vd) :: Except.ok (toL "PLANNED-DURATION", v) :: l2) =
        ExtXDateRange.fromAttrs (l1 ++ Except.ok (toL "PLANNED-DURATION", v) :: l2)) ∧
      ((∀ w, Except.ok (toL "PLANNED-DURATION", w) ∉ l2) →
        ∀ r, ExtXDateRange.fromAttrs (l1 ++ Except.ok (toL "PLANNED-DURATION", v) :: l2) =
            Except.ok r → r.planned_duration = some (toDuration n))) ∧
    (∀ (l1 l2 : List (Res (Str × Str))) (vd v : Str) (ud u : Str),
      parseQuoted vd = Except.ok ud → parseQuoted v = Except.ok u →
      (ExtXDateRange.fromAttrs
          (l1 ++ Except.ok (toL "SCTE35-CMD", vd) :: Except.ok (toL "SCTE35-CMD", v) :: l2) =
        ExtXDateRange.fromAttrs (l1 ++ Except.ok (toL "SCTE35-CMD", v) :: l2)) ∧
      ((∀ w, Except.ok (toL "SCTE35-CMD", w) ∉ l2) →
        ∀ r, ExtXDateRange.fromAttrs (l1 ++ Except.ok (toL "SCTE35-CMD", v) :: l2) =
            Except.ok r → r.scte35_cmd = some u)) ∧
    (∀ (l1 l2 : List (Res (Str × Str))) (vd v : Str) (ud u : Str),
      parseQuoted vd = Except.ok ud → parseQuoted v = Except.ok u →
      (ExtXDateRange.fromAttrs
          (l1 ++ Except.ok (toL "SCTE35-OUT", vd) :: Except.ok (toL "SCTE35-OUT", v) :: l2) =
        ExtXDateRange.fromAttrs (l1 ++ Except.ok (toL "SCTE35-OUT", v) :: l2)) ∧
      ((∀ w, Except.ok (toL "SCTE35-OUT", w) ∉ l2) →
        ∀ r, ExtXDateRange.fromAttrs (l1 ++ Except.ok (toL "SCTE35-OUT", v) :: l2) =
            Except.ok r → r.scte35_out = some u)) ∧
    (∀ (l1 l2 : List (Res (Str × Str))) (vd v : Str) (ud u : Str),
      parseQuoted vd = Except.ok ud → parseQuoted v = Except.ok u →
      (ExtXDateRange.fromAttrs
          (l1 ++ Except.ok (toL "SCTE35-IN", vd) :: Except.ok (toL "SCTE35-IN", v) :: l2) =
        ExtXDateRange.fromAttrs (l1 ++ Except.ok (toL "SCTE35-IN", v) :: l2)) ∧
      ((∀ w, Except.ok (toL "SCTE35-IN", w) ∉ l2) →
        ∀ r, ExtXDateRange.fromAttrs (l1 ++ Except.ok (toL "SCTE35-IN", v) :: l2) =
            Except.ok r → r.scte35_in = some u)) ∧
    (∀ (l1 l2 : List (Res (Str × Str))) (vd v : Str) (ud u : Yes),
      parseYes vd = Except.ok ud → parseYes v = Except.ok u →
      (ExtXDateRange.fromAttrs
          (l1 ++ Except.ok (toL "END-ON-NEXT", vd) :: Except.ok (toL "END-ON-NEXT", v) :: l2) =
        ExtXDateRange.fromAttrs (l1 ++ Except.ok (toL "END-ON-NEXT", v) :: l2)) ∧
      ((∀ w, Except.ok (toL "END-ON-NEXT", w) ∉ l2) →
        ∀ r, ExtXDateRange.fromAttrs (l1 ++ Except.ok (toL "END-ON-NEXT", v) :: l2) =
            Except.ok r → r.end_on_next = some u)) :=
  ⟨dup_map_uri, dup_map_range, dup_dr_id, dup_dr_cls, dup_dr_sd, dup_dr_ed, dup_dr_dur, dup_dr_plan, dup_dr_cmd, dup_dr_out, dup_dr_in2, dup_dr_eon⟩

theorem claim_C10_witness :
    (ExtXMap.fromAttrs
      ([Except.ok (toL "URI", toL "\"a\"")] ++ Except.ok (toL "URI", toL "\"c\"") ::
        Except.ok (toL "URI", toL "\"b\"") :: []) =
      ExtXMap.fromAttrs ([Except.ok (toL "URI", toL "\"a\"")] ++ Except.ok (toL "URI", toL "\"b\"") :: [])) ∧
    (ExtXMap.fromAttrs
      [Except.ok (toL "URI", toL "\"a\""), Except.ok (toL "URI", toL "\"b\"")] =
      Except.ok ⟨toL "b", none⟩) ∧
    ((⟨toL "b", none⟩ : ExtXMap).uri = toL "b") ∧
    (ExtXMap.fromAttrs
      [Except.ok (toL "URI", toL "\"f\""), Except.ok (toL "BYTERANGE", toL "1@2"),
       Except.ok (toL "BYTERANGE", toL "3@4")] =
      Except.ok ⟨toL "f", some ⟨3, some 4⟩⟩) ∧
    ((⟨toL "f", some ⟨3, some 4⟩⟩ : ExtXMap).range = some ⟨3, some 4⟩) ∧
    (ExtXDateRange.fromAttrs
      [Except.ok (toL "START-DATE", toL "\"2010-01-01\""), Except.ok (toL "ID", toL "\"a\""), Except.ok (toL "ID", toL "\"x\"")] =
      Except.ok drC1) ∧
    ((drC1 : ExtXDateRange).id = toL "x") ∧
    (ExtXDateRange.fromAttrs
      [Except.ok (toL "ID", toL "\"x\""), Except.ok (toL "START-DATE", toL "\"2010-01-01\""), Except.ok (toL "CLASS", toL "\"a\""), Except.ok (toL "CLASS", toL "\"c\"")] =
      Except.ok {drC1 with cls := some (toL "c")}) ∧
    (({drC1 with cls := some (toL "c")} : ExtXDateRange).cls = some (toL "c")) ∧
    (ExtXDateRange.fromAttrs
      [Except.ok (toL "ID", toL "\"x\""), Except.ok (toL "START-DATE", toL "\"2000-05-06\""), Except.ok (toL "START-DATE", toL "\"2010-01-01\"")] =
      Except.ok drC1) ∧
    ((drC1 : ExtXDateRange).start_date = (⟨2010, 1, 1⟩ : NDate)) ∧
    (ExtXDateRange.fromAttrs
      [Except.ok (toL "ID", toL "\"x\""), Except.ok (toL "START-DATE", toL "\"2010-01-01\""), Except.ok (toL "END-DATE", toL "\"2011-02-03\""), Except.ok (toL "END-DATE", toL "\"2012-03-04\"")] =
      Except.ok {drC1 with end_date := some ⟨2012, 3, 4⟩}) ∧
    (({drC1 with end_date := some ⟨2012, 3, 4⟩} : ExtXDateRange).end_date = some (⟨2012, 3, 4⟩ : NDate)) ∧
    (ExtXDateRange.fromAttrs
      [Except.ok (toL "ID", toL "\"x\""), Except.ok (toL "START-DATE", toL "\"2010-01-01\""), Except.ok (toL "DURATION", toL "1.5"), Except.ok (toL "DURATION", toL "2.25")] =
      Except.ok {drC1 with duration := some (toDuration 2250000000)}) ∧
    (({drC1 with duration := some (toDuration 2250000000)} : ExtXDateRange).duration = some (toDuration 2250000000)) ∧
    (ExtXDateRange.fromAttrs
      [Except.ok (toL "ID", toL "\"x\""), Except.ok (toL "START-DATE", toL "\"2010-01-01\""), Except.ok (toL "PLANNED-DURATION", toL "1.5"), Except.ok (toL "PLANNED-DURATION", toL "3.5")] =
      Except.ok {drC1 with planned_duration := some (toDuration 3500000000)}) ∧
    (({drC1 with planned_duration := some (toDuration 3500000000)} : ExtXDateRange).planned_duration = some (toDuration 3500000000)) ∧
    (ExtXDateRange.fromAttrs
      [Except.ok (toL "ID", toL "\"x\""), Except.ok (toL "START-DATE", toL "\"2010-01-01\""), Except.ok (toL "SCTE35-CMD", toL "\"a\""), Except.ok (toL "SCTE35-CMD", toL "\"b\"")] =
      Except.ok {drC1 with scte35_cmd := some (toL "b")}) ∧
    (({drC1 with scte35_cmd := some (toL "b")} : ExtXDateRange).scte35_cmd = some (toL "b")) ∧
    (ExtXDateRange.fromAttrs
      [Except.ok (toL "ID", toL "\"x\""), Except.ok (toL "START-DATE", toL "\"2010-01-01\""), Except.ok (toL "SCTE35-OUT", toL "\"a\""), Except.ok (toL "SCTE35-OUT", toL "\"b\"")] =
      Except.ok {drC1 with scte35_out := some (toL "b")}) ∧
    (({drC1 with scte35_out := some (toL "b")} : ExtXDateRange).scte35_out = some (toL "b")) ∧
    (ExtXDateRange.fromAttrs
      [Except.ok (toL "ID", toL "\"x\""), Except.ok (toL "START-DATE", toL "\"2010-01-01\""), Except.ok (toL "SCTE35-IN", toL "\"a\""), Except.ok (toL "SCTE35-IN", toL "\"b\"")] =
      Except.ok {drC1 with scte35_in := some (toL "b")}) ∧
    (({drC1 with scte35_in := some (toL "b")} : ExtXDateRange).scte35_in = some (toL "b")) ∧
    (ExtXDateRange.fromAttrs
      [Except.ok (toL "ID", toL "\"x\""), Except.ok (toL "START-DATE", toL "\"2010-01-01\""), Except.ok (toL "CLASS", toL "\"c\""), Except.ok (toL "END-ON-NEXT", toL "YES"), Except.ok (toL "END-ON-NEXT", toL "YES")] =
      Except.ok {drC1 with cls := some (toL "c"), end_on_next := some Yes.yes}) ∧
    (({drC1 with cls := some (toL "c"), end_on_next := some Yes.yes} : ExtXDateRange).end_on_next = some Yes.yes) :=
  ⟨(claim_C10_duplicate_last_wins.1
      [Except.ok (toL "URI", toL "\"a\"")] []
      (toL "\"c\"") (toL "\"b\"") (toL "c") (toL "b") (by decide) (by decide)).1,
   by decide,
   (claim_C10_duplicate_last_wins.1
      [Except.ok (toL "URI", toL "\"a\"")] []
      (toL "\"c\"") (toL "\"b\"") (toL "c") (toL "b") (by decide) (by decide)).2 (fun w => List.not_mem_nil _) ⟨toL "b", none⟩ (by decide),
   by decide,
   (claim_C10_duplicate_last_wins.2.1
      [Except.ok (toL "URI", toL "\"f\""), Except.ok (toL "BYTERANGE", toL "1@2")] []
      (toL "5@6") (toL "3@4") ⟨5, some 6⟩ ⟨3, some 4⟩ (by decide) (by decide)).2 (fun w => List.not_mem_nil _) ⟨toL "f", some ⟨3, some 4⟩⟩ (by decide),
   by decide,
   (claim_C10_duplicate_last_wins.2.2.1
      [Except.ok (toL "START-DATE", toL "\"2010-01-01\""), Except.ok (toL "ID", toL "\"a\"")] []
      (toL "\"b\"") (toL "\"x\"") (toL "b") (toL "x") (by decide) (by decide)).2 (fun w => List.not_mem_nil _) drC1 (by decide),
   by decide,
   (claim_C10_duplicate_last_wins.2.2.2.1
      [Except.ok (toL "ID", toL "\"x\""), Except.ok (toL "START-DATE", toL "\"2010-01-01\""), Except.ok (toL "CLASS", toL "\"a\"")] []
      (toL "\"b\"") (toL "\"c\"") (toL "b") (toL "c") (by decide) (by decide)).2 (fun w => List.not_mem_nil _) {drC1 with cls := some (toL "c")} (by decide),
   by decide,
   (claim_C10_duplicate_last_wins.2.2.2.2.1
      [Except.ok (toL "ID", toL "\"x\""), Except.ok (toL "START-DATE", toL "\"2000-05-06\"")] []
      (toL "\"2001-07-08\"") (toL "\"2010-01-01\"") ⟨2001, 7, 8⟩ ⟨2010, 1, 1⟩ (by decide) (by decide)).2 (fun w => List.not_mem_nil _) drC1 (by decide),
   by decide,
   (claim_C10_duplicate_last_wins.2.2.2.2.2.1
      [Except.ok (toL "ID", toL "\"x\""), Except.ok (toL "START-DATE", toL "\"2010-01-01\""), Except.ok (toL "END-DATE", toL "\"2011-02-03\"")] []
      (toL "\"2013-05-06\"") (toL "\"2012-03-04\"") ⟨2013, 5, 6⟩ ⟨2012, 3, 4⟩ (by decide) (by decide)).2 (fun w => List.not_mem_nil _) {drC1 with end_date := some ⟨2012, 3, 4⟩} (by decide),
   by decide,
   (claim_C10_duplicate_last_wins.2.2.2.2.2.2.1
      [Except.ok (toL "ID", toL "\"x\""), Except.ok (toL "START-DATE", toL "\"2010-01-01\""), Except.ok (toL "DURATION", toL "1.5")] []
      (toL "1") (toL "2.25") 1000000000 2250000000 (by decide) (by decide)).2 (fun w => List.not_mem_nil _) {drC1 with duration := some (toDuration 2250000000)} (by decide),
   by decide,
   (claim_C10_duplicate_last_wins.2.2.2.2.2.2.2.1
      [Except.ok (toL "ID", toL "\"x\""), Except.ok (toL "START-DATE", toL "\"2010-01-01\""), Except.ok (toL "PLANNED-DURATION", toL "1.5")] []
      (toL "1") (toL "3.5") 1000000000 3500000000 (by decide) (by decide)).2 (fun w => List.not_mem_nil _) {drC1 with planned_duration := some (toDuration 3500000000)} (by decide),
   by decide,
   (claim_C10_duplicate_last_wins.2.2.2.2.2.2.2.2.1
      [Except.ok (toL "ID", toL "\"x\""), Except.ok (toL "START-DATE", toL "\"2010-01-01\""), Except.ok (toL "SCTE35-CMD", toL "\"a\"")] []
      (toL "\"c\"") (toL "\"b\"") (toL "c") (toL "b") (by decide) (by decide)).2 (fun w => List.not_mem_nil _) {drC1 with scte35_cmd := some (toL "b")} (by decide),
   by decide,
   (claim_C10_duplicate_last_wins.2.2.2.2.2.2.2.2.2.1
      [Except.ok (toL "ID", toL "\"x\""), Except.ok (toL "START-DATE", toL "\"2010-01-01\""), Except.ok (toL "SCTE35-OUT", toL "\"a\"")] []
      (toL "\"c\"") (toL "\"b\"") (toL "c") (toL "b") (by decide) (by decide)).2 (fun w => List.not_mem_nil _) {drC1 with scte35_out := some (toL "b")} (by decide),
   by decide,
   (claim_C10_duplicate_last_wins.2.2.2.2.2.2.2.2.2.2.1
      [Except.ok (toL "ID", toL "\"x\""), Except.ok (toL "START-DATE", toL "\"2010-01-01\""), Except.ok (toL "SCTE35-IN", toL "\"a\"")] []
      (toL "\"c\"") (toL "\"b\"") (toL "c") (toL "b") (by decide) (by decide)).2 (fun w => List.not_mem_nil _) {drC1 with scte35_in := some (toL "b")} (by decide),
   by decide,
   (claim_C10_duplicate_last_wins.2.2.2.2.2.2.2.2.2.2.2
      [Except.ok (toL "ID", toL "\"x\""), Except.ok (toL "START-DATE", toL "\"2010-01-01\""), Except.ok (toL "CLASS", toL "\"c\""), Except.ok (toL "END-ON-NEXT", toL "YES")] []
      (toL "YES") (toL "YES") Yes.yes Yes.yes (by decide) (by decide)).2 (fun w => List.not_mem_nil _) {drC1 with cls := some (toL "c"), end_on_next := some Yes.yes} (by decide)⟩

/-- C3: parsing `#EXT-X-KEY:METHOD=NONE` yields the tag with an absent key
record, which renders back as `#EXT-X-KEY:METHOD=NONE` and requires V1; and
any input whose attribute list contains the raw pair `METHOD=NONE` together
with a URI, IV, KEYFORMAT or KEYFORMATVERSIONS attribute fails with
`InvalidInput`. -/
theorem claim_C3_key_method_none (t k v : Str)
    (hmn : Except.ok (toL "METHOD", toL "NONE") ∈ attrPairs t)
    (hkv : Except.ok (k, v) ∈ attrPairs t)
    (hk : k ∈ forbiddenKeys) :
    ExtXKey.from_str (keyMark ++ t) = errI ∧
    ExtXKey.from_str (toL "#EXT-X-KEY:METHOD=NONE") = Except.ok ⟨none⟩ ∧
    ExtXKey.render ⟨none⟩ = toL "#EXT-X-KEY:METHOD=NONE" ∧
    ExtXKey.requires_version ⟨none⟩ = ProtocolVersion.v1 := by
  refine ⟨?_, by decide, by decide, rfl⟩
  rw [ExtXKey.from_str]
  rw [if_pos (startsWithL_app keyMark t)]
  simp only [dropLen_app keyMark t]
  rw [ExtXKey.fromAttrs, if_pos (any_isMethodNone_of_mem hmn)]
  exact keyNoneLoop_err hkv hk

theorem claim_C3_witness :
    ExtXKey.from_str (keyMark ++ toL "METHOD=NONE,URI=\"x\"") = errI :=
  (claim_C3_key_method_none (toL "METHOD=NONE,URI=\"x\"") (toL "URI") (toL "\"x\"")
    (by decide) (by decide) (by decide)).1

/-- C6: after the `#EXTINF:` literal the text is split on the first comma
only — the left part must parse as a decimal duration, with failure
propagated as `InvalidInput`; the right part, when present, becomes the
title verbatim (so later commas belong to the title); without a comma the
title is absent. -/
theorem claim_C6_extinf_split (d r : Str) (hd : ∀ a ∈ d, a ≠ ',')
    (hr : m3u8New r = Except.ok r) :
    (ExtInf.from_str (extInfMark ++ d) =
      Except.map (fun n => ⟨toDuration n, none⟩) (parseDecimal d)) ∧
    (ExtInf.from_str (extInfMark ++ d ++ ',' :: r) =
      Except.map (fun n => ⟨toDuration n, some r⟩) (parseDecimal d)) := by
  constructor
  · rw [ExtInf.from_str, if_pos (startsWithL_app extInfMark d),
      dropLen_app extInfMark d, splitFirst_no_mem hd]
    rcases hp : parseDecimal d with e | n <;> simp [hp, Except.map]
  · rw [show extInfMark ++ d ++ ',' :: r = extInfMark ++ (d ++ ',' :: r) from rfl,
      ExtInf.from_str, if_pos (startsWithL_app extInfMark (d ++ ',' :: r)),
      dropLen_app extInfMark (d ++ ',' :: r), splitFirst_app r hd]
    rcases hp : parseDecimal d with e | n <;> simp [hp, Except.map, hr]

theorem claim_C6_witness :
    ExtInf.from_str (extInfMark ++ toL "1.5" ++ ',' :: toL "a,b") =
      Except.ok ⟨⟨1, 500000000⟩, some (toL "a,b")⟩ ∧
    ExtInf.from_str (extInfMark ++ toL "5") = Except.ok ⟨⟨5, 0⟩, none⟩ ∧
    ExtInf.from_str (extInfMark ++ toL "x2") = errI :=
  ⟨Eq.trans ((claim_C6_extinf_split (toL "1.5") (toL "a,b") (by decide) (by decide)).2)
     (by decide),
   Eq.trans ((claim_C6_extinf_split (toL "5") [] (by decide) (by decide)).1) (by decide),
   Eq.trans ((claim_C6_extinf_split (toL "x2") [] (by decide) (by decide)).1) (by decide)⟩

theorem splitAux_single {e : Str} (hc : ∀ a ∈ e, a ≠ ',') (hq : ∀ a ∈ e, a ≠ '"') :
    ∀ q cur, splitAttrsAux e q cur = [cur.reverse ++ e] := by
  induction e with
  | nil => intro q cur; simp [splitAttrsAux]
  | cons c r ih =>
    intro q cur
    have hc1 : c ≠ ',' := hc c (List.mem_cons_self _ _)
    have hq1 : c ≠ '"' := hq c (List.mem_cons_self _ _)
    have hcr : ∀ a ∈ r, a ≠ ',' := fun a ha => hc a (List.mem_cons_of_mem _ ha)
    have hqr : ∀ a ∈ r, a ≠ '"' := fun a ha => hq a (List.mem_cons_of_mem _ ha)
    rw [splitAttrsAux, if_neg (fun hand => hc1 hand.1), if_neg hq1, ih hcr hqr]
    simp

theorem splitAux_app {e : Str} (hc : ∀ a ∈ e, a ≠ ',') (hqe : ∀ a ∈ e, a ≠ '"')
    {t : Str} :
    ∀ q cur, scanQ t q = false →
      splitAttrsAux (t ++ ',' :: e) q cur = splitAttrsAux t q cur ++ [e] := by
  induction t with
  | nil =>
    intro q cur hq
    have hq0 : q = false := hq
    subst hq0
    simp only [List.nil_append, splitAttrsAux]
    rw [if_pos (by simp), splitAux_single hc hqe]
    simp
  | cons c t ih =>
    intro q cur hq
    by_cases hcq : c = ',' ∧ q = false
    · obtain ⟨hc1, hq0⟩ := hcq
      subst hq0
      have hq' : scanQ t false = false := by
        rw [scanQ, if_neg (show c ≠ '"' by rw [hc1]; decide)] at hq
        exact hq
      rw [List.cons_append, splitAttrsAux, if_pos ⟨hc1, rfl⟩,
        splitAttrsAux, if_pos ⟨hc1, rfl⟩, ih false [] hq']
      simp
    · have hq' : scanQ t (if c = '"' then !q else q) = false := hq
      rw [List.cons_append, splitAttrsAux, if_neg hcq, splitAttrsAux, if_neg hcq,
        ih _ _ hq']

theorem attrPairs_app {t k v : Str} (ht : t ≠ []) (hsq : scanQ t false = false)
    (hk0 : k ≠ []) (hkE : ∀ a ∈ k, a ≠ '=') (hkc : ∀ a ∈ k, a ≠ ',')
    (hkq : ∀ a ∈ k, a ≠ '"') (hvc : ∀ a ∈ v, a ≠ ',') (hvq : ∀ a ∈ v, a ≠ '"') :
    attrPairs (t ++ ',' :: (k ++ '=' :: v)) = attrPairs t ++ [Except.ok (k, v)] := by
  have he_c : ∀ a ∈ k ++ '=' :: v, a ≠ ',' := by
    intro a ha
    rcases List.mem_append.mp ha with h | h
    · exact hkc a h
    · rcases List.mem_cons.mp h with h | h
      · rw [h]; decide
      · exact hvc a h
  have he_q : ∀ a ∈ k ++ '=' :: v, a ≠ '"' := by
    intro a ha
    rcases List.mem_append.mp ha with h | h
    · exact hkq a h
    · rcases List.mem_cons.mp h with h | h
      · rw [h]; decide
      · exact hvq a h
  have hpp : parsePair (k ++ '=' :: v) = Except.ok (k, v) := by
    unfold parsePair
    rw [splitFirst_app v hkE]
    show (if k ≠ [] then Except.ok (k, v) else errI) = Except.ok (k, v)
    rw [if_pos hk0]
  rw [attrPairs, if_neg (by simp), splitAux_app he_c he_q false [] hsq,
    List.map_append, attrPairs, if_neg ht]
  simp [hpp]

theorem map_from_str_app (t : Str) :
    ExtXMap.from_str (mapMark ++ t) = ExtXMap.fromAttrs (attrPairs t) := by
  rw [ExtXMap.from_str, if_pos (startsWithL_app mapMark t), dropLen_app mapMark t]

theorem key_from_str_app (t : Str) :
    ExtXKey.from_str (keyMark ++ t) = ExtXKey.fromAttrs (attrPairs t) := by
  rw [ExtXKey.from_str, if_pos (startsWithL_app keyMark t), dropLen_app keyMark t]

theorem mapFromAttrs_app_unknown {l : List (Res (Str × Str))} {k v : Str}
    (h1 : k ≠ toL "URI") (h2 : k ≠ toL "BYTERANGE") :
    ExtXMap.fromAttrs (l ++ [Except.ok (k, v)]) = ExtXMap.fromAttrs l := by
  rw [ExtXMap.fromAttrs, ExtXMap.fromAttrs, mapLoop_app]
  rcases hl : mapLoop ⟨none, none⟩ l with e | st
  · rfl
  · show (mapLoop st [Except.ok (k, v)]).bind mapFinalize = mapFinalize st
    have hone : mapLoop st [Except.ok (k, v)] = Except.ok st := by
      simp only [mapLoop, mapStep_unknown h1 h2]
    rw [hone]
    rfl

theorem drStep_unknown {st : DRState} {k v : Str} (h : drKeyOf k = DRKey.kOther) :
    drStep st k v = Except.ok st := by
  unfold drStep
  rw [h]
  rfl

theorem drFromAttrs_app_unknown {l : List (Res (Str × Str))} {k v : Str}
    (h : drKeyOf k = DRKey.kOther) :
    ExtXDateRange.fromAttrs (l ++ [Except.ok (k, v)]) = ExtXDateRange.fromAttrs l := by
  rw [ExtXDateRange.fromAttrs, ExtXDateRange.fromAttrs, drLoop_app]
  rcases hl : drLoop drInit l with e | st
  · rfl
  · show (drLoop st [Except.ok (k, v)]).bind drFinalize = drFinalize st
    have hone : drLoop st [Except.ok (k, v)] = Except.ok st := by
      simp only [drLoop, drStep_unknown h]
    rw [hone]
    rfl

theorem keyNoneLoop_app_unknown {l : List (Res (Str × Str))} {k v : Str}
    (hf : k ∉ forbiddenKeys) :
    keyNoneLoop (l ++ [Except.ok (k, v)]) = keyNoneLoop l := by
  induction l with
  | nil => simp [keyNoneLoop, if_neg hf]
  | cons p rest ih =>
    cases p with
    | error e => rfl
    | ok kv =>
      obtain ⟨k', v'⟩ := kv
      by_cases hf' : k' ∈ forbiddenKeys
      · simp only [List.cons_append, keyNoneLoop, if_pos hf']
      · simp only [List.cons_append, keyNoneLoop, if_neg hf', List.append_eq]
        exact ih

theorem dkStep_unknown {st : DKState} {k v : Str} (h1 : k ≠ toL "METHOD")
    (h2 : k ≠ toL "URI") (h3 : k ≠ toL "IV") (h4 : k ≠ toL "KEYFORMAT")
    (h5 : k ≠ toL "KEYFORMATVERSIONS") : dkStep st k v = Except.ok st := by
  rw [dkStep, if_neg h1, if_neg h2, if_neg h3, if_neg h4, if_neg h5]

theorem dkLoop_app (l1 l2 : List (Res (Str × Str))) :
    ∀ st, dkLoop st (l1 ++ l2) = (dkLoop st l1).bind fun st1 => dkLoop st1 l2 := by
  induction l1 with
  | nil => intro st; rfl
  | cons p rest ih =>
    intro st
    cases p with
    | error e => rfl
    | ok kv =>
      obtain ⟨k, v⟩ := kv
      simp only [List.cons_append, dkLoop]
      rcases hs : dkStep st k v with e | st1
      · rfl
      · exact ih st1

theorem dkFromPairs_app_unknown {l : List (Res (Str × Str))} {k v : Str}
    (h1 : k ≠ toL "METHOD") (h2 : k ≠ toL "URI") (h3 : k ≠ toL "IV")
    (h4 : k ≠ toL "KEYFORMAT") (h5 : k ≠ toL "KEYFORMATVERSIONS") :
    dkFromPairs (l ++ [Except.ok (k, v)]) = dkFromPairs l := by
  rw [dkFromPairs, dkFromPairs, dkLoop_app]
  rcases hl : dkLoop ⟨none, none, none, none, none⟩ l with e | st
  · rfl
  · show (dkLoop st [Except.ok (k, v)]).bind dkFinalize = dkFinalize st
    have hone : dkLoop st [Except.ok (k, v)] = Except.ok st := by
      simp only [dkLoop, dkStep_unknown h1 h2 h3 h4 h5]
    rw [hone]
    rfl

theorem isMethodNone_false {k v : Str} (h : k ≠ toL "METHOD") :
    isMethodNone (Except.ok (k, v)) = false := by
  simp [isMethodNone, h]

theorem keyFromAttrs_app_unknown {l : List (Res (Str × Str))} {k v : Str}
    (h1 : k ≠ toL "METHOD") (h2 : k ≠ toL "URI") (h3 : k ≠ toL "IV")
    (h4 : k ≠ toL "KEYFORMAT") (h5 : k ≠ toL "KEYFORMATVERSIONS") :
    ExtXKey.fromAttrs (l ++ [Except.ok (k, v)]) = ExtXKey.fromAttrs l := by
  have hU : k ∉ forbiddenKeys := by
    intro hmem
    simp only [forbiddenKeys, List.mem_cons, List.not_mem_nil, or_false] at hmem
    rcases hmem with h | h | h | h
    · exact h2 h
    · exact h3 h
    · exact h4 h
    · exact h5 h
  rw [ExtXKey.fromAttrs, ExtXKey.fromAttrs, List.any_append,
    show (([Except.ok (k, v)] : List (Res (Str × Str))).any isMethodNone) = false from
      by simp [isMethodNone_false h1],
    Bool.or_false]
  by_cases ha : l.any isMethodNone = true
  · rw [if_pos ha, if_pos ha, keyNoneLoop_app_unknown hU]
  · rw [if_neg ha, if_neg ha, dkFromPairs_app_unknown h1 h2 h3 h4 h5]

/-- C7: appending one additional well-formed `KEY=VALUE` pair whose key is
not one of the tag's recognized attribute names (and, for the date-range
tag, does not start with `X-`) to an attribute-bearing tag line that parses
successfully yields the same parse result; the unrecognized pair is
silently ignored, not an error. -/
theorem claim_C7_unknown_attr_tolerance (t k v : Str) (ht : t ≠ [])
    (hsq : scanQ t false = false) (hk0 : k ≠ [])
    (hkE : ∀ a ∈ k, a ≠ '=') (hkc : ∀ a ∈ k, a ≠ ',') (hkq : ∀ a ∈ k, a ≠ '"')
    (hvc : ∀ a ∈ v, a ≠ ',') (hvq : ∀ a ∈ v, a ≠ '"') :
    (k ≠ toL "URI" → k ≠ toL "BYTERANGE" →
      ∀ m, ExtXMap.from_str (mapMark ++ t) = Except.ok m →
        ExtXMap.from_str (mapMark ++ (t ++ ',' :: (k ++ '=' :: v))) = Except.ok m) ∧
    (k ≠ toL "ID" → k ≠ toL "CLASS" → k ≠ toL "START-DATE" → k ≠ toL "END-DATE" →
      k ≠ toL "DURATION" → k ≠ toL "PLANNED-DURATION" → k ≠ toL "SCTE35-CMD" →
      k ≠ toL "SCTE35-OUT" → k ≠ toL "SCTE35-IN" → k ≠ toL "END-ON-NEXT" →
      startsWithL (toL "X-") k = false →
      ∀ d, ExtXDateRange.from_str (drMark ++ t) = Except.ok d →
        ExtXDateRange.from_str (drMark ++ (t ++ ',' :: (k ++ '=' :: v))) =
          Except.ok d) ∧
    (k ≠ toL "METHOD" → k ≠ toL "URI" → k ≠ toL "IV" → k ≠ toL "KEYFORMAT" →
      k ≠ toL "KEYFORMATVERSIONS" →
      ∀ x, ExtXKey.from_str (keyMark ++ t) = Except.ok x →
        ExtXKey.from_str (keyMark ++ (t ++ ',' :: (k ++ '=' :: v))) = Except.ok x) := by
  have hap := attrPairs_app ht hsq hk0 hkE hkc hkq hvc hvq
  refine ⟨?_, ?_, ?_⟩
  · intro h1 h2 m hm
    rw [map_from_str_app] at hm
    rw [map_from_str_app, hap, mapFromAttrs_app_unknown h1 h2]
    exact hm
  · intro h1 h2 h3 h4 h5 h6 h7 h8 h9 h10 hx d hd
    rw [dr_from_str_app] at hd
    rw [dr_from_str_app, hap,
      drFromAttrs_app_unknown (drKeyOf_other h1 h2 h3 h4 h5 h6 h7 h8 h9 h10 hx)]
    exact hd
  · intro h1 h2 h3 h4 h5 x hx
    rw [key_from_str_app] at hx
    rw [key_from_str_app, hap, keyFromAttrs_app_unknown h1 h2 h3 h4 h5]
    exact hx

theorem claim_C7_witness :
    ExtXMap.from_str
        (mapMark ++ (toL "URI=\"foo\"" ++ ',' :: (toL "FOO" ++ '=' :: toL "1"))) =
      Except.ok ⟨toL "foo", none⟩ ∧
    ExtXDateRange.from_str
        (drMark ++ (toL "ID=\"x\",START-DATE=\"2010-01-01\"" ++ ',' ::
          (toL "FOO" ++ '=' :: toL "1"))) =
      Except.ok ⟨toL "x", none, ⟨2010, 1, 1⟩, none, none, none, none, none, none,
        none, []⟩ ∧
    ExtXKey.from_str
        (keyMark ++ (toL "METHOD=NONE" ++ ',' :: (toL "FOO" ++ '=' :: toL "1"))) =
      Except.ok ⟨none⟩ :=
  ⟨(claim_C7_unknown_attr_tolerance (toL "URI=\"foo\"") (toL "FOO") (toL "1")
      (by decide) (by decide) (by decide) (by decide) (by decide) (by decide)
      (by decide) (by decide)).1 (by decide) (by decide) ⟨toL "foo", none⟩
      (by decide),
   (claim_C7_unknown_attr_tolerance (toL "ID=\"x\",START-DATE=\"2010-01-01\"")
      (toL "FOO") (toL "1") (by decide) (by decide) (by decide) (by decide)
      (by decide) (by decide) (by decide) (by decide)).2.1 (by decide) (by decide)
      (by decide) (by decide) (by decide) (by decide) (by decide) (by decide)
      (by decide) (by decide) (by decide)
      ⟨toL "x", none, ⟨2010, 1, 1⟩, none, none, none, none, none, none, none, []⟩
      (by decide),
   (claim_C7_unknown_attr_tolerance (toL "METHOD=NONE") (toL "FOO") (toL "1")
      (by decide) (by decide) (by decide) (by decide) (by decide) (by decide)
      (by decide) (by decide)).2.2 (by decide) (by decide) (by decide) (by decide)
      (by decide) ⟨none⟩ (by decide)⟩

end M3u8
